import Mathlib

set_option maxRecDepth 100000

/-!
Formal model of the request queue core of `@apify/storage-local`.

The embedding follows the source:
* `src/utils.ts` — request id derivation (`uniqueKeyToRequestId`), `purgeNullsFromObject`;
* `src/emulators/request_queue_emulator.ts` — the SQLite schema, prepared
  statements, triggers and transactions of `RequestQueueEmulator`;
* `src/resource_clients/request_queue.js` — the `RequestQueueClient` public
  operations (`addRequest`, `updateRequest`, `getRequest`, `listHead`, `update`),
  its `ow` validation shapes and `_createRequestModel` / `_calculateOrderNo`.

Modelling conventions:
* Each queue lives in its own database file and always has queue id 1, so the
  state of one queue database is a single queue row plus its request rows,
  kept in rowid (insertion) order.
* Wall-clock times (`Date.now()`, the `STRFTIME` timestamp SQL) are natural
  numbers of milliseconds; every operation takes the current time as an
  explicit argument.
* `orderNo` is `Option Int`: `none` is SQL NULL (handled), `some n` a signed
  millisecond sort key.
* The stored `json` column holds `JSON.stringify` of the request object and is
  only ever read back through `JSON.parse`; since stringify/parse round-trips
  JSON values, the column is modelled as the parsed JSON value itself.
* SQL errors roll the enclosing transaction back, so every failing operation
  returns the unchanged state.
-/

/-! ## SHA-256, base64 and the request id (src/utils.ts) -/

/-- Word size of the 32-bit modular arithmetic used throughout SHA-256. -/
def w32 : Nat := 4294967296

/-- Addition modulo 2^32. -/
def add32 (a b : Nat) : Nat := (a + b) % w32

/-- Right rotation of a 32-bit word by `n` bits. -/
def rotr32 (n a : Nat) : Nat := ((a >>> n) ||| (a <<< (32 - n))) % w32

/-- Bitwise complement within 32 bits. -/
def not32 (a : Nat) : Nat := (w32 - 1) - (a % w32)

/-- SHA-256 big sigma 0. -/
def bigSigma0 (x : Nat) : Nat := rotr32 2 x ^^^ rotr32 13 x ^^^ rotr32 22 x

/-- SHA-256 big sigma 1. -/
def bigSigma1 (x : Nat) : Nat := rotr32 6 x ^^^ rotr32 11 x ^^^ rotr32 25 x

/-- SHA-256 small sigma 0. -/
def smallSigma0 (x : Nat) : Nat := rotr32 7 x ^^^ rotr32 18 x ^^^ (x >>> 3)

/-- SHA-256 small sigma 1. -/
def smallSigma1 (x : Nat) : Nat := rotr32 17 x ^^^ rotr32 19 x ^^^ (x >>> 10)

/-- SHA-256 round constants. -/
def sha256K : List Nat :=
  [1116352408, 1899447441, 3049323471, 3921009573, 961987163,
   1508970993, 2453635748, 2870763221, 3624381080, 310598401,
   607225278, 1426881987, 1925078388, 2162078206, 2614888103,
   3248222580, 3835390401, 4022224774, 264347078, 604807628,
   770255983, 1249150122, 1555081692, 1996064986, 2554220882,
   2821834349, 2952996808, 3210313671, 3336571891, 3584528711,
   113926993, 338241895, 666307205, 773529912, 1294757372,
   1396182291, 1695183700, 1986661051, 2177026350, 2456956037,
   2730485921, 2820302411, 3259730800, 3345764771, 3516065817,
   3600352804, 4094571909, 275423344, 430227734, 506948616,
   659060556, 883997877, 958139571, 1322822218, 1537002063,
   1747873779, 1955562222, 2024104815, 2227730452, 2361852424,
   2428436474, 2756734187, 3204031479, 3329325298]

/-- Eight 32-bit words of SHA-256 chaining state. -/
structure Hash8 where
  a : Nat
  b : Nat
  c : Nat
  d : Nat
  e : Nat
  f : Nat
  g : Nat
  h : Nat
deriving DecidableEq

/-- SHA-256 initial chaining state. -/
def sha256H0 : Hash8 :=
  ⟨1779033703, 3144134277, 1013904242, 2773480762, 1359893119, 2600822924, 528734635, 1541459225⟩

/-- Big-endian byte serialization of `x` into `n` bytes. -/
def toBytesBE : Nat → Nat → List Nat
  | 0, _ => []
  | n + 1, x => (x >>> (8 * n)) % 256 :: toBytesBE n x

/-- SHA-256 message padding: append `0x80`, zero bytes up to 56 mod 64, and the
bit length as a 64-bit big-endian integer. -/
def padMessage (msg : List Nat) : List Nat :=
  let len := msg.length
  let zeros := (120 - (len + 1) % 64) % 64
  msg ++ [128] ++ List.replicate zeros 0 ++ toBytesBE 8 (8 * len)

/-- Group bytes into big-endian 32-bit words. -/
def toWords : List Nat → List Nat
  | b1 :: b2 :: b3 :: b4 :: rest =>
    (((b1 <<< 8 ||| b2) <<< 8 ||| b3) <<< 8 ||| b4) :: toWords rest
  | _ => []

/-- Fuelled 64-byte chunking (fuel keeps the recursion structural so the kernel
can evaluate it). -/
def chunk64Aux : Nat → List Nat → List (List Nat)
  | 0, _ => []
  | _, [] => []
  | fuel + 1, l => l.take 64 :: chunk64Aux fuel (l.drop 64)

/-- Split a byte list into 64-byte blocks. -/
def chunk64 (l : List Nat) : List (List Nat) := chunk64Aux l.length l

/-- Extend the 16-word block to the 64-word message schedule; the accumulator
holds the schedule so far in reverse. -/
def extendLoop : Nat → List Nat → List Nat
  | 0, rws => rws
  | n + 1, rws =>
    let w2 := rws.getD 1 0
    let w7 := rws.getD 6 0
    let w15 := rws.getD 14 0
    let w16 := rws.getD 15 0
    let w := (smallSigma1 w2 + w7 + smallSigma0 w15 + w16) % w32
    extendLoop n (w :: rws)

/-- Message schedule of one block. -/
def schedule (ws : List Nat) : List Nat := (extendLoop 48 ws.reverse).reverse

/-- One SHA-256 round. -/
def roundStep (st : Hash8) (kw : Nat × Nat) : Hash8 :=
  let ch := (st.e &&& st.f) ^^^ (not32 st.e &&& st.g)
  let maj := (st.a &&& st.b) ^^^ (st.a &&& st.c) ^^^ (st.b &&& st.c)
  let t1 := (st.h + bigSigma1 st.e + ch + kw.1 + kw.2) % w32
  let t2 := (bigSigma0 st.a + maj) % w32
  ⟨add32 t1 t2, st.a, st.b, st.c, add32 st.d t1, st.e, st.f, st.g⟩

/-- Compress one 64-byte block into the chaining state. -/
def compressBlock (st : Hash8) (block : List Nat) : Hash8 :=
  let ws := schedule (toWords block)
  let r := (sha256K.zip ws).foldl roundStep st
  ⟨add32 st.a r.a, add32 st.b r.b, add32 st.c r.c, add32 st.d r.d,
   add32 st.e r.e, add32 st.f r.f, add32 st.g r.g, add32 st.h r.h⟩

/-- SHA-256 digest (32 bytes) of a byte message; the behaviour of the Node
`crypto.createHash of sha256` call in `uniqueKeyToRequestId`. -/
def sha256 (msg : List Nat) : List Nat :=
  let final := (chunk64 (padMessage msg)).foldl compressBlock sha256H0
  toBytesBE 4 final.a ++ toBytesBE 4 final.b ++ toBytesBE 4 final.c ++ toBytesBE 4 final.d ++
  toBytesBE 4 final.e ++ toBytesBE 4 final.f ++ toBytesBE 4 final.g ++ toBytesBE 4 final.h

/-- Standard base64 alphabet. -/
def base64Alphabet : List Char :=
  "ABCDEFGHIJKLMNOPQRSTUVWXYZabcdefghijklmnopqrstuvwxyz0123456789+/".toList

/-- Character of a 6-bit group. -/
def b64c (n : Nat) : Char := base64Alphabet.getD n 'A'

/-- RFC 4648 base64 encoding, the behaviour of the Node digest in base64 form. -/
def base64Encode : List Nat → List Char
  | [] => []
  | [b1] => [b64c (b1 >>> 2), b64c ((b1 &&& 3) <<< 4), '=', '=']
  | [b1, b2] => [b64c (b1 >>> 2), b64c (((b1 &&& 3) <<< 4) ||| (b2 >>> 4)), b64c ((b2 &&& 15) <<< 2), '=']
  | b1 :: b2 :: b3 :: rest =>
    b64c (b1 >>> 2) :: b64c (((b1 &&& 3) <<< 4) ||| (b2 >>> 4)) ::
    b64c (((b2 &&& 15) <<< 2) ||| (b3 >>> 6)) :: b64c (b3 &&& 63) :: base64Encode rest

/-- UTF-8 encoding of one character (Node strings are hashed in utf8). -/
def utf8EncodeChar (c : Char) : List Nat :=
  let n := c.toNat
  if n < 128 then [n]
  else if n < 2048 then [192 ||| (n >>> 6), 128 ||| (n &&& 63)]
  else if n < 65536 then [224 ||| (n >>> 12), 128 ||| ((n >>> 6) &&& 63), 128 ||| (n &&& 63)]
  else [240 ||| (n >>> 18), 128 ||| ((n >>> 12) &&& 63), 128 ||| ((n >>> 6) &&& 63), 128 ||| (n &&& 63)]

/-- UTF-8 encoding of a string. -/
def utf8Encode (s : String) : List Nat := (s.toList.map utf8EncodeChar).flatten

/-- Length of the id property of a request (src/consts.ts). -/
def REQUEST_ID_LENGTH : Nat := 15

/-- Request id derivation from `src/utils.ts`: base64 of the SHA-256 digest of
the unique key, with the characters plus, slash and equals removed, truncated
to 15 characters when longer. -/
def uniqueKeyToRequestId (uniqueKey : String) : String :=
  let str := (base64Encode (sha256 (utf8Encode uniqueKey))).filter
    (fun c => !(c == '+' || c == '/' || c == '='))
  String.mk (if str.length > REQUEST_ID_LENGTH then str.take REQUEST_ID_LENGTH else str)

/-- Request id derivation as worded by the specification: the first 15
characters of base64 of the SHA-256 digest of the unique key with the
characters plus, slash and equals stripped. Stated independently of the source
function so the two can be compared. -/
def specRequestIdOfUniqueKey (uniqueKey : String) : String :=
  String.mk (((base64Encode (sha256 (utf8Encode uniqueKey))).filter
    (fun c => !(c == '+' || c == '/' || c == '='))).take 15)

/-! ## JSON values and the object helpers of src/utils.ts -/

mutual
/-- JSON value. Objects carry their properties in insertion order, mirroring
JavaScript objects. -/
inductive Json where
  | null
  | bool (b : Bool)
  | num (n : Int)
  | str (s : String)
  | arr (items : JsonList)
  | obj (fields : JsonFields)
deriving DecidableEq

/-- Elements of a JSON array. -/
inductive JsonList where
  | nil
  | cons (hd : Json) (tl : JsonList)
deriving DecidableEq

/-- Properties of a JSON object, in insertion order. -/
inductive JsonFields where
  | nil
  | cons (key : String) (val : Json) (tl : JsonFields)
deriving DecidableEq
end

/-- Read a property of a JSON object representation. -/
def getField : JsonFields → String → Option Json
  | .nil, _ => none
  | .cons k v tl, key => if k == key then some v else getField tl key

/-- Set a property on a JSON object representation, keeping the position of an
existing key (JavaScript spread-and-assign semantics) and appending otherwise. -/
def setField : JsonFields → String → Json → JsonFields
  | .nil, key, v => .cons key v .nil
  | .cons k v' tl, key, v =>
    if k == key then .cons k v tl else .cons k v' (setField tl key v)

/-- Keys of a JSON object, in order. -/
def fieldKeys : JsonFields → List String
  | .nil => []
  | .cons k _ tl => k :: fieldKeys tl

/-- Drop the properties whose value is null. -/
def purgeFields : JsonFields → JsonFields
  | .nil => .nil
  | .cons _ Json.null tl => purgeFields tl
  | .cons k v tl => .cons k v (purgeFields tl)

/-- Behaviour of `purgeNullsFromObject` (src/utils.ts): on a plain object, drop
every top-level property whose value is null; leave any other value alone. -/
def purgeNullsFromObject : Json → Json
  | .obj fields => .obj (purgeFields fields)
  | j => j

/-- Test that no top-level property is null. -/
def noNullField : JsonFields → Bool
  | .nil => true
  | .cons _ Json.null _ => false
  | .cons _ _ tl => noNullField tl

/-! ## Data model of one queue database -/

/-- A request model (and, identically shaped, a stored request row): the
columns of the requests table for queue id 1, plus the stored `json` column in
parsed form. -/
structure RequestModel where
  id : String
  orderNo : Option Int
  url : String
  uniqueKey : String
  method : Option String
  retryCount : Option Int
  json : Json
deriving DecidableEq

/-- State of one queue database file: the single queue row (id 1) and the
request rows in rowid (insertion) order. `pendingRequestCount` is a generated
column and therefore not stored. -/
structure QueueState where
  name : String
  createdAt : Nat
  modifiedAt : Nat
  accessedAt : Nat
  totalRequestCount : Int
  handledRequestCount : Int
  requests : List RequestModel
deriving DecidableEq

/-- Generated column: `totalRequestCount - handledRequestCount`. -/
def QueueState.pendingRequestCount (s : QueueState) : Int :=
  s.totalRequestCount - s.handledRequestCount

/-- Queue row freshly created by `insertByName`: all three timestamps default
to now and the counters default to zero. -/
def freshQueue (name : String) (t : Nat) : QueueState :=
  { name := name, createdAt := t, modifiedAt := t, accessedAt := t,
    totalRequestCount := 0, handledRequestCount := 0, requests := [] }

/-! ## Prepared statements (RequestQueueEmulator._createStatements) -/

/-- Statement `updateAccessedAtById`: set `accessedAt` to now. -/
def updateAccessedAtById (s : QueueState) (t : Nat) : QueueState :=
  { s with accessedAt := t }

/-- Statement `updateModifiedAtById`: set `modifiedAt` to now. -/
def updateModifiedAtById (s : QueueState) (t : Nat) : QueueState :=
  { s with modifiedAt := t }

/-- Triggers `T_bump_modifiedAt_accessedAt_on_insert/update/delete`: after any
INSERT, UPDATE or DELETE on the requests table, set both `modifiedAt` and
`accessedAt` of the queue row to now. -/
def bumpModifiedAndAccessed (s : QueueState) (t : Nat) : QueueState :=
  { s with modifiedAt := t, accessedAt := t }

/-- Statement `adjustTotalAndHandledRequestCounts`. -/
def adjustTotalAndHandledRequestCounts (s : QueueState) (dTotal dHandled : Int) : QueueState :=
  { s with totalRequestCount := s.totalRequestCount + dTotal,
           handledRequestCount := s.handledRequestCount + dHandled }

/-- Statement `selectRequestOrderNoByModel`: `SELECT orderNo ... WHERE queueId
AND id`; `none` is the undefined result of an absent row, `some o` the column
value (itself possibly NULL). -/
def selectRequestOrderNo (s : QueueState) (requestId : String) : Option (Option Int) :=
  (s.requests.find? (fun r => r.id == requestId)).map (·.orderNo)

/-- Statement `selectRequestJsonByModel`: fetch the stored json of a request. -/
def selectRequestJsonById (s : QueueState) (requestId : String) : Option Json :=
  (s.requests.find? (fun r => r.id == requestId)).map (·.json)

/-- Primary-key conflict test of `insertRequestByModel`: the requests table has
PRIMARY KEY (queueId, id, uniqueKey). -/
def hasPrimaryKeyConflict (s : QueueState) (m : RequestModel) : Bool :=
  s.requests.any (fun r => r.id == m.id && r.uniqueKey == m.uniqueKey)

/-- Statement `insertRequestByModel` in the successful case: append the row. -/
def insertRequestRow (s : QueueState) (m : RequestModel) : QueueState :=
  { s with requests := s.requests ++ [m] }

/-- Statement `updateRequestByModel`: `UPDATE ... SET orderNo, url, uniqueKey,
method, retryCount, json WHERE queueId AND id` (the id column is untouched). -/
def updateRequestRowByModel (s : QueueState) (m : RequestModel) : QueueState :=
  { s with requests := s.requests.map (fun r =>
      if r.id == m.id then
        { r with orderNo := m.orderNo, url := m.url, uniqueKey := m.uniqueKey,
                 method := m.method, retryCount := m.retryCount, json := m.json }
      else r) }

/-- Statement `updateOrderNo`: `UPDATE ... SET orderNo WHERE id` (note: the
statement addresses rows by id alone). -/
def updateOrderNoStmt (s : QueueState) (requestId : String) (orderNo : Int) : QueueState :=
  { s with requests := s.requests.map (fun r =>
      if r.id == requestId then { r with orderNo := some orderNo } else r) }

/-- Statement `fetchRequestNotExpired`: `SELECT id, orderNo ... WHERE id AND
orderNo IS NOT NULL`. -/
def fetchRequestNotExpired (s : QueueState) (requestId : String) : Option RequestModel :=
  s.requests.find? (fun r => r.id == requestId && r.orderNo.isSome)

/-- Lock test of `fetchRequestNotExpiredAndLocked`: orderNo non-NULL and
outside the band from minus current time to current time. -/
def isLockedOrderNo (orderNo : Option Int) (currentTime : Nat) : Bool :=
  match orderNo with
  | none => false
  | some o => o > (currentTime : Int) || o < -(currentTime : Int)

/-- Statement `fetchRequestNotExpiredAndLocked`: `SELECT id ... WHERE id AND
orderNo IS NOT NULL AND (orderNo > :currentTime OR orderNo < -(:currentTime))`. -/
def fetchRequestNotExpiredAndLocked (s : QueueState) (requestId : String) (currentTime : Nat) :
    Option RequestModel :=
  s.requests.find? (fun r => r.id == requestId && isLockedOrderNo r.orderNo currentTime)

/-- Sort key used by the head queries; only applied to rows whose orderNo is
non-NULL. -/
def orderNoKey (r : RequestModel) : Int := r.orderNo.getD 0

/-- Ascending comparison on the orderNo sort key. -/
def orderNoLE (a b : RequestModel) : Prop := orderNoKey a ≤ orderNoKey b

instance : DecidableRel orderNoLE := fun a b => by
  unfold orderNoLE; infer_instance

instance : IsTotal RequestModel orderNoLE :=
  ⟨fun a b => le_total (orderNoKey a) (orderNoKey b)⟩

instance : IsTrans RequestModel orderNoLE :=
  ⟨fun _ _ _ h1 h2 => le_trans h1 h2⟩

/-- Ascending orderNo ordering of request rows (ties left in scan order). -/
def sortByOrderNo (l : List RequestModel) : List RequestModel :=
  List.insertionSort orderNoLE l

/-- Availability test of `fetchRequestHeadThatWillBeLocked`: orderNo non-NULL
and between minus current time and current time. -/
def isAvailableOrderNo (orderNo : Option Int) (currentTime : Nat) : Bool :=
  match orderNo with
  | none => false
  | some o => o ≤ (currentTime : Int) && o ≥ -(currentTime : Int)

/-- Statement `fetchRequestHeadThatWillBeLocked`: the available head rows in
ascending orderNo order, limited. -/
def fetchRequestHeadThatWillBeLocked (s : QueueState) (limit : Nat) (currentTime : Nat) :
    List RequestModel :=
  (sortByOrderNo (s.requests.filter (fun r => isAvailableOrderNo r.orderNo currentTime))).take limit

/-- Statement `selectRequestJsonsByQueueIdWithLimit`: `SELECT json ... WHERE
queueId AND orderNo IS NOT NULL LIMIT :limit`. The SQL carries no ORDER BY and
no bound on orderNo against the current time; SQLite serves the query through
the partial index `I_queueId_orderNo` (on `(queueId, orderNo)` where orderNo is
non-NULL), so the rows come back in ascending orderNo order — the behaviour the
repository test suite pins down (listHead fetches requests in correct order). -/
def selectRequestJsonsByQueueIdWithLimit (s : QueueState) (limit : Nat) : List Json :=
  ((sortByOrderNo (s.requests.filter (fun r => r.orderNo.isSome))).take limit).map (·.json)

/-! ## Transactions (RequestQueueEmulator._createTransactions) -/

/-- Errors observable from queue operations. `invalidArgument` stands for an
`ow` validation failure, `idMismatch` for the thrown error with message
`Request ID does not match its uniqueKey.`, `notLockedOrMissing` for the two
lock errors of prolong and delete-lock. -/
inductive QueueError where
  | invalidArgument
  | idMismatch
  | queueNotFound
  | notLockedOrMissing
deriving DecidableEq

/-- Decidable equality of operation results. -/
instance instDecEqExcept {ε α : Type} [DecidableEq ε] [DecidableEq α] : DecidableEq (Except ε α)
  | .error a, .error b =>
    match decEq a b with
    | isTrue h => isTrue (by rw [h])
    | isFalse h => isFalse (by intro hh; cases hh; exact h rfl)
  | .error _, .ok _ => isFalse (by intro h; cases h)
  | .ok _, .error _ => isFalse (by intro h; cases h)
  | .ok a, .ok b =>
    match decEq a b with
    | isTrue h => isTrue (by rw [h])
    | isFalse h => isFalse (by intro hh; cases hh; exact h rfl)

/-- Result shape of add and update (emulators/queue_operation_info.ts): built
from the request id and, optionally, the orderNo of a pre-existing row; absent
(undefined) orderNo means the request was not present. -/
structure QueueOperationInfo where
  requestId : String
  wasAlreadyPresent : Bool
  wasAlreadyHandled : Bool
deriving DecidableEq

/-- Constructor semantics of `QueueOperationInfo`: `wasAlreadyPresent` is
defined-ness of the argument, `wasAlreadyHandled` is it being NULL. -/
def mkQueueOperationInfo (requestId : String) (requestOrderNo : Option (Option Int)) :
    QueueOperationInfo :=
  { requestId := requestId,
    wasAlreadyPresent := requestOrderNo.isSome,
    wasAlreadyHandled := requestOrderNo matches some none }

/-- State change shared by the `addRequest` and `batchAddRequests` transactions
for one model: try the INSERT; on success the insert trigger bumps both
timestamps and the counters are adjusted (+1 total, +1 handled when the model
arrives already handled); on a primary-key conflict nothing changes. -/
def addModelState (s : QueueState) (m : RequestModel) (t : Nat) : QueueState :=
  if hasPrimaryKeyConflict s m then s
  else
    adjustTotalAndHandledRequestCounts (bumpModifiedAndAccessed (insertRequestRow s m) t)
      1 (if m.orderNo = none then 1 else 0)

/-- Transaction `addRequest`: insert, adjust counters and report a fresh
insertion; on primary-key conflict report the existing row instead (first-wins,
nothing overwritten). The foreign-key failure path (queue row missing) cannot
arise here because the state contains the queue row. -/
def txAddRequest (s : QueueState) (m : RequestModel) (t : Nat) :
    Except QueueError QueueOperationInfo × QueueState :=
  if hasPrimaryKeyConflict s m then
    (.ok (mkQueueOperationInfo m.id (selectRequestOrderNo s m.id)), s)
  else
    (.ok (mkQueueOperationInfo m.id none), addModelState s m t)

/-- Processed entry of a batch (emulators/batch_add_requests/processed_request.ts
is not part of the sources at hand). Modelled from the spec: each processed
entry carries the fields of `QueueOperationInfo` and additionally the
`uniqueKey` of the model. -/
structure ProcessedRequest where
  requestId : String
  uniqueKey : String
  wasAlreadyPresent : Bool
  wasAlreadyHandled : Bool
deriving DecidableEq

/-- Per-model result of the batch transaction, mirroring the addRequest logic. -/
def batchProcessedOne (s : QueueState) (m : RequestModel) : ProcessedRequest :=
  if hasPrimaryKeyConflict s m then
    let info := mkQueueOperationInfo m.id (selectRequestOrderNo s m.id)
    { requestId := m.id, uniqueKey := m.uniqueKey,
      wasAlreadyPresent := info.wasAlreadyPresent, wasAlreadyHandled := info.wasAlreadyHandled }
  else
    { requestId := m.id, uniqueKey := m.uniqueKey,
      wasAlreadyPresent := false, wasAlreadyHandled := false }

/-- Transaction `batchAddRequests`: the addRequest logic per model, inside one
transaction; unprocessedRequests always stays empty in this implementation. -/
def txBatchAddRequests (s : QueueState) (ms : List RequestModel) (t : Nat) :
    (List ProcessedRequest × QueueState) :=
  ms.foldl (fun acc m => (acc.1 ++ [batchProcessedOne acc.2 m], addModelState acc.2 m t)) ([], s)

/-- Transaction `updateRequest`: read the existing orderNo; when the row is
absent delegate to addRequest; otherwise update the row, adjust the handled
counter by the typeof-based delta and report the prior state. -/
def txUpdateRequest (s : QueueState) (m : RequestModel) (t : Nat) :
    Except QueueError QueueOperationInfo × QueueState :=
  match selectRequestOrderNo s m.id with
  | none => txAddRequest s m t
  | some oldOrderNo =>
    let s1 := bumpModifiedAndAccessed (updateRequestRowByModel s m) t
    let changing : Int := if oldOrderNo.isNone ≠ m.orderNo.isNone then 1 else 0
    let adjustment : Int := if oldOrderNo = none then -changing else changing
    (.ok (mkQueueOperationInfo m.id (some oldOrderNo)),
     adjustTotalAndHandledRequestCounts s1 0 adjustment)

/-- Transaction `prolongRequestLock`: fail unless a row with this id exists and
is not handled; then push the lock expiry to the absolute value of the stored
orderNo plus the lock duration, signed by the forefront option, and return the
unlock timestamp. -/
def txProlongRequestLock (s : QueueState) (requestId : String) (lockSecs : Nat)
    (forefront : Bool) (t : Nat) : Except QueueError Int × QueueState :=
  match fetchRequestNotExpired s requestId with
  | none => (.error .notLockedOrMissing, s)
  | some req =>
    let unlockTimestamp : Int := ((req.orderNo.getD 0).natAbs : Int) + (lockSecs : Int) * 1000
    let newOrderNo : Int := if forefront then -unlockTimestamp else unlockTimestamp
    (.ok unlockTimestamp,
     bumpModifiedAndAccessed (updateOrderNoStmt s requestId newOrderNo) t)

/-- Transaction `deleteRequestLock`: fail unless a row with this id exists, is
not handled and is currently locked; then set orderNo to now (negative when
forefront), restoring availability. -/
def txDeleteRequestLock (s : QueueState) (requestId : String) (forefront : Bool) (t : Nat) :
    Except QueueError Unit × QueueState :=
  match fetchRequestNotExpiredAndLocked s requestId t with
  | none => (.error .notLockedOrMissing, s)
  | some _ =>
    (.ok (),
     bumpModifiedAndAccessed
       (updateOrderNoStmt s requestId (if forefront then -(t : Int) else (t : Int))) t)

/-- New orderNo a row receives when locked by `listAndLockHead`: current time
plus the lock duration, keeping the sign of the stored orderNo. -/
def lockedOrderNo (orderNo : Int) (lockSecs : Nat) (t : Nat) : Int :=
  ((t : Int) + (lockSecs : Int) * 1000) * (if orderNo > 0 then 1 else -1)

/-- Transaction `listAndLockHead`: select the available head rows, rewrite each
orderNo to the lock expiry (sign preserved) and return the original json
payloads. -/
def txListAndLockHead (s : QueueState) (limit : Nat) (lockSecs : Nat) (t : Nat) :
    List Json × QueueState :=
  let requestsToLock := fetchRequestHeadThatWillBeLocked s limit t
  if requestsToLock.isEmpty then ([], s)
  else
    (requestsToLock.map (·.json),
     requestsToLock.foldl (fun st r =>
       bumpModifiedAndAccessed (updateOrderNoStmt st r.id (lockedOrderNo (r.orderNo.getD 0) lockSecs t)) t) s)

/-! ## Client operations (resource_clients/request_queue.js) -/

/-- Test for a string-valued optional JSON property. -/
def isJsonString : Option Json → Bool
  | some (.str _) => true
  | _ => false

/-- Validation of the request shape shared by addRequest and updateRequest
(the `ow` partial shape `requestShape`): url and uniqueKey are required
strings, method an optional string, retryCount an optional number, handledAt an
optional date (a date serializes to a nonempty string; date validity beyond
nonemptiness is not modelled because only truthiness of the field is read
downstream). The key list must be duplicate-free because a JavaScript object
cannot carry duplicate keys. -/
def validRequestShape (req : JsonFields) : Bool :=
  decide ((fieldKeys req).Nodup) &&
  isJsonString (getField req "url") &&
  isJsonString (getField req "uniqueKey") &&
  (match getField req "method" with
   | none => true
   | some (.str _) => true
   | some _ => false) &&
  (match getField req "retryCount" with
   | none => true
   | some (.num _) => true
   | some _ => false) &&
  (match getField req "handledAt" with
   | none => true
   | some (.str d) => d ≠ ""
   | some _ => false)

/-- String content of a JSON property known to be a string. -/
def jsonAsString : Option Json → String
  | some (.str s) => s
  | _ => ""

/-- Optional string content of a JSON property. -/
def jsonAsStringOpt : Option Json → Option String
  | some (.str s) => some s
  | _ => none

/-- Optional numeric content of a JSON property. -/
def jsonAsIntOpt : Option Json → Option Int
  | some (.num n) => some n
  | _ => none

/-- `_calculateOrderNo`: NULL when the request carries a (truthy) handledAt,
otherwise now, negative when forefront. -/
def calculateOrderNo (req : JsonFields) (forefront : Bool) (t : Nat) : Option Int :=
  if (getField req "handledAt").isSome then none
  else some (if forefront then -(t : Int) else (t : Int))

/-- `_createRequestModel`: derive the id from the unique key, reject a supplied
truthy id that disagrees with it, and stringify the request with the id set. -/
def createRequestModel (req : JsonFields) (forefront : Bool) (t : Nat) :
    Except QueueError RequestModel :=
  let orderNo := calculateOrderNo req forefront t
  let id := uniqueKeyToRequestId (jsonAsString (getField req "uniqueKey"))
  if (match getField req "id" with
      | some (.str i) => i ≠ "" && i ≠ id
      | _ => false) then
    .error .idMismatch
  else
    .ok { id := id, orderNo := orderNo,
          url := jsonAsString (getField req "url"),
          uniqueKey := jsonAsString (getField req "uniqueKey"),
          method := jsonAsStringOpt (getField req "method"),
          retryCount := jsonAsIntOpt (getField req "retryCount"),
          json := .obj (setField req "id" (.str id)) }

/-- Client `addRequest`: `ow` validation additionally requires the id property
to be undefined; then build the model and run the addRequest transaction. -/
def clientAddRequest (s : QueueState) (req : JsonFields) (forefront : Bool) (t : Nat) :
    Except QueueError QueueOperationInfo × QueueState :=
  if !(validRequestShape req && (getField req "id").isNone) then
    (.error .invalidArgument, s)
  else
    match createRequestModel req forefront t with
    | .error e => (.error e, s)
    | .ok m => txAddRequest s m t

/-- Client `updateRequest`: `ow` validation additionally requires the id
property to be a string; then build the model and run the updateRequest
transaction. -/
def clientUpdateRequest (s : QueueState) (req : JsonFields) (forefront : Bool) (t : Nat) :
    Except QueueError QueueOperationInfo × QueueState :=
  if !(validRequestShape req && isJsonString (getField req "id")) then
    (.error .invalidArgument, s)
  else
    match createRequestModel req forefront t with
    | .error e => (.error e, s)
    | .ok m => txUpdateRequest s m t

/-- `_jsonToRequest`: parse the stored json and purge top-level nulls. -/
def jsonToRequest (j : Json) : Json := purgeNullsFromObject j

/-- Result of `listHead`. -/
structure QueueHead where
  limit : Nat
  queueModifiedAt : Nat
  hadMultipleClients : Bool
  items : List Json
deriving DecidableEq

/-- Client `listHead`: bump accessedAt, read the head jsons (limited), parse
each item. -/
def clientListHead (s : QueueState) (limit : Nat) (t : Nat) : QueueHead × QueueState :=
  let s1 := updateAccessedAtById s t
  ({ limit := limit, queueModifiedAt := s1.modifiedAt, hadMultipleClients := false,
     items := (selectRequestJsonsByQueueIdWithLimit s1 limit).map jsonToRequest }, s1)

/-- Client `getRequest`: bump accessedAt, fetch and parse the request json. -/
def clientGetRequest (s : QueueState) (requestId : String) (t : Nat) :
    Option Json × QueueState :=
  let s1 := updateAccessedAtById s t
  ((selectRequestJsonById s1 requestId).map jsonToRequest, s1)

/-- Client `get`: bump accessedAt and read the queue row. -/
def clientGetQueue (s : QueueState) (t : Nat) : QueueState :=
  updateAccessedAtById s t

/-- Client `update` (rename), successful path: move the directory, set the new
name, and bump `modifiedAt` (and only `modifiedAt`) via `updateModifiedAtById`. -/
def clientRenameQueue (s : QueueState) (newName : String) (t : Nat) : QueueState :=
  updateModifiedAtById { s with name := newName } t

/-! ## Operation histories -/

/-- One public queue operation together with the wall-clock time at which it
runs. Add, batch-add and update take the already-built request model (the
emulator transaction level, as in the sources); the rest are client level. -/
inductive QueueOp where
  | addRequest (m : RequestModel) (t : Nat)
  | batchAddRequests (ms : List RequestModel) (t : Nat)
  | updateRequest (m : RequestModel) (t : Nat)
  | listHead (limit : Nat) (t : Nat)
  | listAndLockHead (limit : Nat) (lockSecs : Nat) (t : Nat)
  | prolongRequestLock (id : String) (lockSecs : Nat) (forefront : Bool) (t : Nat)
  | deleteRequestLock (id : String) (forefront : Bool) (t : Nat)
  | getQueue (t : Nat)
  | getRequest (id : String) (t : Nat)
  | renameQueue (newName : String) (t : Nat)

/-- State transition of one operation (results discarded; failed operations
leave the state unchanged because the transaction rolls back). -/
def applyOp (s : QueueState) : QueueOp → QueueState
  | .addRequest m t => (txAddRequest s m t).2
  | .batchAddRequests ms t => (txBatchAddRequests s ms t).2
  | .updateRequest m t => (txUpdateRequest s m t).2
  | .listHead limit t => (clientListHead s limit t).2
  | .listAndLockHead limit lockSecs t => (txListAndLockHead s limit lockSecs t).2
  | .prolongRequestLock id lockSecs forefront t => (txProlongRequestLock s id lockSecs forefront t).2
  | .deleteRequestLock id forefront t => (txDeleteRequestLock s id forefront t).2
  | .getQueue t => clientGetQueue s t
  | .getRequest id t => (clientGetRequest s id t).2
  | .renameQueue newName t => clientRenameQueue s newName t

/-- Run a history of operations. -/
def runOps (s : QueueState) (ops : List QueueOp) : QueueState :=
  ops.foldl applyOp s

/-- Wall-clock time of an operation. -/
def opTime : QueueOp → Nat
  | .addRequest _ t => t
  | .batchAddRequests _ t => t
  | .updateRequest _ t => t
  | .listHead _ t => t
  | .listAndLockHead _ _ t => t
  | .prolongRequestLock _ _ _ t => t
  | .deleteRequestLock _ _ t => t
  | .getQueue t => t
  | .getRequest _ t => t
  | .renameQueue _ t => t

/-- Monotone wall clock: operation times never decrease, starting from `c`. -/
def timesMono (c : Nat) : List QueueOp → Bool
  | [] => true
  | op :: rest => c ≤ opTime op && timesMono (opTime op) rest

/-- Rename test. -/
def isRenameOp : QueueOp → Bool
  | .renameQueue _ _ => true
  | _ => false

/-- Latest wall-clock time after a history starting at `c`. -/
def endTime (c : Nat) : List QueueOp → Nat
  | [] => c
  | op :: rest => endTime (opTime op) rest

/-! ## Invariants and side conditions -/

/-- Counter agreement of the queue row with its request rows: the stored
`totalRequestCount` is the number of request rows and `handledRequestCount` the
number of rows whose orderNo is NULL. -/
def countsOk (s : QueueState) : Prop :=
  s.totalRequestCount = (s.requests.length : Int) ∧
  s.handledRequestCount = ((s.requests.filter (fun r => r.orderNo.isNone)).length : Int)

/-- No two request rows of the queue share an id. The primary key only forces
uniqueness of `(id, uniqueKey)` pairs; distinct rows with equal ids would
require a collision of the SHA-256-derived id function. Several statements
(`updateOrderNo`, `updateRequestByModel`) address rows by id alone and rely on
this. -/
def nodupIds (s : QueueState) : Prop :=
  (s.requests.map (·.id)).Nodup

/-- Consistency of a model with the stored rows: any stored row carrying the
same id also carries the same uniqueKey. Models built by the client satisfy
this unless two distinct uniqueKeys collide under the SHA-256-derived id. -/
def idConsistentModel (s : QueueState) (m : RequestModel) : Bool :=
  s.requests.all (fun r => r.id != m.id || r.uniqueKey == m.uniqueKey)

/-- Consistency of a batch of models inserted in sequence. -/
def modelsConsistent : QueueState → List RequestModel → Nat → Bool
  | _, [], _ => true
  | s, m :: rest, t => idConsistentModel s m && modelsConsistent (addModelState s m t) rest t

/-- Consistency side condition of a single operation. -/
def opConsistent (s : QueueState) : QueueOp → Bool
  | .addRequest m _ => idConsistentModel s m
  | .batchAddRequests ms t => modelsConsistent s ms t
  | .updateRequest m _ => idConsistentModel s m
  | _ => true

/-- Consistency side condition of a history. -/
def opsConsistent : QueueState → List QueueOp → Bool
  | _, [] => true
  | s, op :: rest => opConsistent s op && opsConsistent (applyOp s op) rest

/-- Frame relation between a stored row before and after a locking operation:
everything except the numeric value of orderNo agrees, and the handled state
(NULL-ness of orderNo) is untouched. -/
def frameAgrees (r r' : RequestModel) : Prop :=
  r'.id = r.id ∧ r'.url = r.url ∧ r'.uniqueKey = r.uniqueKey ∧ r'.method = r.method ∧
  r'.retryCount = r.retryCount ∧ r'.json = r.json ∧ (r'.orderNo.isSome = r.orderNo.isSome)

/-! ## Concrete fixtures for witnesses and counterexamples -/

/-- Queue state holding one pending tail request, added at time 1000. -/
def c1Row : RequestModel :=
  { id := "r1", orderNo := some 1000, url := "http://example.com/1", uniqueKey := "k1",
    method := none, retryCount := none, json := .obj (.cons "marker" (.str "r1") .nil) }

/-- Queue state for the listHead-versus-lock scenario. -/
def c1State : QueueState :=
  { freshQueue "q" 1000 with requests := [c1Row], totalRequestCount := 1 }

/-- Request object with uniqueKey `k`, no id, a POST method. -/
def c2Req : JsonFields :=
  .cons "url" (.str "u2") (.cons "uniqueKey" (.str "k") (.cons "method" (.str "POST") .nil))

/-- Stored row whose id derives from uniqueKey `k`. -/
def c2Row : RequestModel :=
  { id := uniqueKeyToRequestId "k", orderNo := some 5, url := "u", uniqueKey := "k",
    method := none, retryCount := none, json := .obj .nil }

/-- Queue state already holding the row for uniqueKey `k`. -/
def c2State : QueueState :=
  { freshQueue "q" 0 with requests := [c2Row], totalRequestCount := 1 }

/-- Small mixed history: two adds (one handled), an update, a lock round. -/
def c3Ops : List QueueOp :=
  [ .addRequest { id := "a", orderNo := some 10, url := "u", uniqueKey := "ka",
                  method := none, retryCount := none, json := .obj .nil } 10,
    .addRequest { id := "b", orderNo := none, url := "u", uniqueKey := "kb",
                  method := none, retryCount := none, json := .obj .nil } 11,
    .updateRequest { id := "a", orderNo := none, url := "u", uniqueKey := "ka",
                     method := none, retryCount := none, json := .obj .nil } 12,
    .updateRequest { id := "c", orderNo := some 13, url := "u", uniqueKey := "kc",
                     method := none, retryCount := none, json := .obj .nil } 13,
    .listAndLockHead 5 60 14,
    .prolongRequestLock "c" 60 false 15,
    .deleteRequestLock "c" false 16,
    .listHead 5 17 ]

/-- Update-request object for uniqueKey `k` carrying the derived id. -/
def c4Req : JsonFields :=
  .cons "url" (.str "u3") (.cons "uniqueKey" (.str "k")
    (.cons "id" (.str (uniqueKeyToRequestId "k")) (.cons "handledAt" (.str "2020-01-01") .nil)))

/-- Pending unlocked row for the prolong counterexample. -/
def c6Row : RequestModel :=
  { id := "a", orderNo := some 500, url := "u", uniqueKey := "ka",
    method := none, retryCount := none, json := .obj .nil }

/-- Queue state with the single pending unlocked row. -/
def c6State : QueueState :=
  { freshQueue "q" 0 with requests := [c6Row], totalRequestCount := 1 }

/-- Request object that supplies an id disagreeing with its uniqueKey. -/
def c7Req : JsonFields :=
  .cons "url" (.str "u") (.cons "uniqueKey" (.str "k") (.cons "id" (.str "bogus") .nil))

/-- Request object whose userData is null. -/
def c8Req : JsonFields :=
  .cons "url" (.str "u") (.cons "uniqueKey" (.str "k") (.cons "userData" Json.null .nil))

/-- Request object with a non-null userData payload. -/
def c8wReq : JsonFields :=
  .cons "url" (.str "https://example.com/1") (.cons "uniqueKey" (.str "https://example.com/1")
    (.cons "userData" (.obj (.cons "label" (.str "x") .nil)) .nil))

/-- Queue state with one pending and one handled row, duplicate-free ids. -/
def c10State : QueueState :=
  { freshQueue "q" 0 with
    requests := [ { id := "a", orderNo := some 40, url := "u", uniqueKey := "ka",
                    method := none, retryCount := none, json := .obj .nil },
                  { id := "b", orderNo := none, url := "u", uniqueKey := "kb",
                    method := some "POST", retryCount := some 2, json := .obj .nil } ],
    totalRequestCount := 2, handledRequestCount := 1 }

/-! ## Theorems -/

/-- C1: divergence witness. The spec demands that requests returned by
`listAndLockHead` stay invisible to further head queries, in particular that a
subsequent `listHead` excludes the locked rows. In the code the listHead query
(`selectRequestJsonsByQueueIdWithLimit`) filters only on `orderNo IS NOT NULL`
and carries no bound against the current time, so a locked row remains in the
`listHead` output. Concretely: one pending request with orderNo 1000;
`listAndLockHead(limit 1, lockSecs 60)` at time 2000 returns it and rewrites
its orderNo to 62000; at time 2500 the row is still locked — a second
`listAndLockHead` returns nothing — yet `listHead` still returns the row. -/
theorem listAndLockHead_locked_row_still_in_listHead :
    (txListAndLockHead c1State 1 60 2000).1 = [c1Row.json] ∧
    selectRequestOrderNo (txListAndLockHead c1State 1 60 2000).2 "r1" = some (some 62000) ∧
    (txListAndLockHead (txListAndLockHead c1State 1 60 2000).2 1 60 2500).1 = [] ∧
    (clientListHead (txListAndLockHead c1State 1 60 2000).2 100 2500).1.items
      = [jsonToRequest c1Row.json] := by decide

/-- C6: counterexample. The claim says `prolongRequestLock` fails with the
NotLockedOrMissing error when the target row is not currently locked; in the
code `fetchRequestNotExpired` only requires the row to exist with a non-NULL
orderNo, so prolonging an unlocked pending row (orderNo 500 at time 1000)
succeeds and returns 500 + 60000. -/
theorem prolongRequestLock_succeeds_on_unlocked_row :
    (∀ r ∈ c6State.requests, isLockedOrderNo r.orderNo 1000 = false) ∧
    txProlongRequestLock c6State "a" 60 false 1000 =
      (.ok 60500, bumpModifiedAndAccessed (updateOrderNoStmt c6State "a" 60500) 1000) := by decide

/-- C7: counterexample. The claim says an addRequest whose caller-supplied id
disagrees with the derived id is rejected with the error message about the id
not matching its uniqueKey; in the code the `ow` validation of addRequest
demands the id property be undefined, so any supplied id — matching or not —
fails earlier as a validation (InvalidArgument) error. -/
theorem addRequest_supplied_id_rejected_as_invalid_argument :
    jsonAsStringOpt (getField c7Req "id") = some "bogus" ∧
    "bogus" ≠ uniqueKeyToRequestId "k" ∧
    clientAddRequest (freshQueue "q" 0) c7Req false 5 = (.error .invalidArgument, freshQueue "q" 0) ∧
    QueueError.invalidArgument ≠ QueueError.idMismatch := by decide

/-- C8: counterexample. The claim says getRequest returns the exact object the
caller passed with the id added, every field preserved including userData; in
the code `_jsonToRequest` applies `purgeNullsFromObject`, so a request whose
userData is null comes back without the userData property. -/
theorem getRequest_drops_null_valued_field :
    (clientGetRequest (clientAddRequest (freshQueue "q" 0) c8Req false 5).2
        (uniqueKeyToRequestId "k") 6).1 ≠
      some (.obj (setField c8Req "id" (.str (uniqueKeyToRequestId "k")))) ∧
    (clientGetRequest (clientAddRequest (freshQueue "q" 0) c8Req false 5).2
        (uniqueKeyToRequestId "k") 6).1 =
      some (.obj (.cons "url" (.str "u") (.cons "uniqueKey" (.str "k")
        (.cons "id" (.str (uniqueKeyToRequestId "k")) .nil)))) := by decide

/-- C9: counterexample. The claim says accessedAt is at least modifiedAt after
every operation, including rename; in the code the rename path calls
`updateModifiedAtById` without touching accessedAt, so renaming a queue
created at time 0 at time 5 leaves accessedAt 0 below modifiedAt 5. -/
theorem rename_breaks_accessedAt_ge_modifiedAt :
    timesMono 0 [QueueOp.renameQueue "b" 5] = true ∧
    (runOps (freshQueue "a" 0) [QueueOp.renameQueue "b" 5]).accessedAt <
      (runOps (freshQueue "a" 0) [QueueOp.renameQueue "b" 5]).modifiedAt := by decide

/-- C2: for a request whose uniqueKey (hence derived id) is already present, a
second addRequest returns the existing-row report (wasAlreadyPresent true,
wasAlreadyHandled iff the stored orderNo is NULL) and leaves the whole state —
stored row, totalRequestCount, handledRequestCount — unchanged, whatever the
new request carries. -/
theorem addRequest_duplicate_first_wins (s : QueueState) (req : JsonFields)
    (forefront : Bool) (t : Nat) (row0 : RequestModel)
    (hval : validRequestShape req = true)
    (hid : getField req "id" = none)
    (hfind : s.requests.find?
      (fun r => r.id == uniqueKeyToRequestId (jsonAsString (getField req "uniqueKey"))) = some row0)
    (huk : row0.uniqueKey = jsonAsString (getField req "uniqueKey")) :
    clientAddRequest s req forefront t =
      (.ok { requestId := uniqueKeyToRequestId (jsonAsString (getField req "uniqueKey")),
             wasAlreadyPresent := true, wasAlreadyHandled := row0.orderNo.isNone }, s) := by
  have hmem := List.mem_of_find?_eq_some hfind
  have hid0 : row0.id = uniqueKeyToRequestId (jsonAsString (getField req "uniqueKey")) := by
    have := List.find?_some hfind
    simpa using this
  have hpk : hasPrimaryKeyConflict s
      { id := uniqueKeyToRequestId (jsonAsString (getField req "uniqueKey")),
        orderNo := calculateOrderNo req forefront t,
        url := jsonAsString (getField req "url"),
        uniqueKey := jsonAsString (getField req "uniqueKey"),
        method := jsonAsStringOpt (getField req "method"),
        retryCount := jsonAsIntOpt (getField req "retryCount"),
        json := .obj (setField req "id"
          (.str (uniqueKeyToRequestId (jsonAsString (getField req "uniqueKey"))))) } = true := by
    unfold hasPrimaryKeyConflict
    refine List.any_eq_true.mpr ⟨row0, hmem, ?_⟩
    simp [hid0, huk]
  simp only [clientAddRequest, hval, hid, Option.isNone_none, Bool.and_self, Bool.not_true,
    Bool.false_eq_true, if_false, createRequestModel, Bool.true_and]
  simp only [txAddRequest, hpk, if_true, selectRequestOrderNo, hfind, Option.map_some,
    mkQueueOperationInfo, Option.isSome_some]
  cases h : row0.orderNo <;> simp [h]

/-- C2 witness: concrete instantiation — the queue already holds the row for
uniqueKey k; re-adding k with a different method returns the existing-row
report and changes nothing. -/
theorem addRequest_duplicate_first_wins_witness :
    validRequestShape c2Req = true ∧
    clientAddRequest c2State c2Req false 9 =
      (.ok { requestId := uniqueKeyToRequestId "k",
             wasAlreadyPresent := true, wasAlreadyHandled := false }, c2State) :=
  ⟨by decide,
   by
    have h := addRequest_duplicate_first_wins c2State c2Req false 9 c2Row
      (by decide) (by decide) (by decide) (by decide)
    simpa using h⟩

/-- C4: updateRequest on an existing row returns the prior state
(wasAlreadyPresent true, wasAlreadyHandled from the old orderNo) and adjusts
handledRequestCount by +1 for a pending-to-handled transition, -1 for
handled-to-pending, 0 otherwise, with totalRequestCount unchanged; on an
absent row it behaves as addRequest — the model is appended, the counters
adjust as for a fresh insertion — and reports wasAlreadyPresent false. -/
theorem updateRequest_prior_state_and_counter_delta (s : QueueState) (req : JsonFields)
    (forefront : Bool) (t : Nat)
    (hval : validRequestShape req = true)
    (hid : getField req "id" =
      some (.str (uniqueKeyToRequestId (jsonAsString (getField req "uniqueKey"))))) :
    (∀ row0, s.requests.find?
        (fun r => r.id == uniqueKeyToRequestId (jsonAsString (getField req "uniqueKey"))) = some row0 →
      (clientUpdateRequest s req forefront t).1 =
        .ok { requestId := uniqueKeyToRequestId (jsonAsString (getField req "uniqueKey")),
              wasAlreadyPresent := true, wasAlreadyHandled := row0.orderNo.isNone } ∧
      (clientUpdateRequest s req forefront t).2.totalRequestCount = s.totalRequestCount ∧
      (clientUpdateRequest s req forefront t).2.handledRequestCount = s.handledRequestCount +
        (match row0.orderNo.isNone, (calculateOrderNo req forefront t).isNone with
         | false, true => (1 : Int)
         | true, false => (-1 : Int)
         | _, _ => (0 : Int))) ∧
    (s.requests.find?
        (fun r => r.id == uniqueKeyToRequestId (jsonAsString (getField req "uniqueKey"))) = none →
      ∃ m, createRequestModel req forefront t = .ok m ∧
        m.id = uniqueKeyToRequestId (jsonAsString (getField req "uniqueKey")) ∧
        m.orderNo = calculateOrderNo req forefront t ∧
        (clientUpdateRequest s req forefront t).1 =
          .ok { requestId := m.id, wasAlreadyPresent := false, wasAlreadyHandled := false } ∧
        (clientUpdateRequest s req forefront t).2.requests = s.requests ++ [m] ∧
        (clientUpdateRequest s req forefront t).2.totalRequestCount = s.totalRequestCount + 1 ∧
        (clientUpdateRequest s req forefront t).2.handledRequestCount = s.handledRequestCount +
          (if (calculateOrderNo req forefront t).isNone then 1 else 0)) := by
  have hmismatch : (match getField req "id" with
      | some (.str i) => i ≠ "" && i ≠ uniqueKeyToRequestId (jsonAsString (getField req "uniqueKey"))
      | _ => false) = false := by
    rw [hid]; simp
  have hval2 : isJsonString (getField req "id") = true := by rw [hid]; rfl
  have hM : clientUpdateRequest s req forefront t =
      txUpdateRequest s
        { id := uniqueKeyToRequestId (jsonAsString (getField req "uniqueKey")),
          orderNo := calculateOrderNo req forefront t,
          url := jsonAsString (getField req "url"),
          uniqueKey := jsonAsString (getField req "uniqueKey"),
          method := jsonAsStringOpt (getField req "method"),
          retryCount := jsonAsIntOpt (getField req "retryCount"),
          json := .obj (setField req "id"
            (.str (uniqueKeyToRequestId (jsonAsString (getField req "uniqueKey"))))) } t := by
    simp only [clientUpdateRequest, hval, hval2, Bool.and_self, Bool.not_true,
      Bool.false_eq_true, if_false, createRequestModel, hmismatch]
  constructor
  · intro row0 hfind
    rw [hM]
    simp only [txUpdateRequest, selectRequestOrderNo, hfind, Option.map_some,
      Option.map_some', mkQueueOperationInfo, Option.isSome_some,
      adjustTotalAndHandledRequestCounts, bumpModifiedAndAccessed, updateRequestRowByModel]
    refine ⟨?_, by simp, ?_⟩
    · cases h : row0.orderNo <;> simp [h]
    · cases h1 : row0.orderNo <;> cases h2 : calculateOrderNo req forefront t <;>
        simp [h1, h2]
  · intro hfind
    have hnone := List.find?_eq_none.mp hfind
    have hcreate : createRequestModel req forefront t =
        .ok { id := uniqueKeyToRequestId (jsonAsString (getField req "uniqueKey")),
              orderNo := calculateOrderNo req forefront t,
              url := jsonAsString (getField req "url"),
              uniqueKey := jsonAsString (getField req "uniqueKey"),
              method := jsonAsStringOpt (getField req "method"),
              retryCount := jsonAsIntOpt (getField req "retryCount"),
              json := .obj (setField req "id"
                (.str (uniqueKeyToRequestId (jsonAsString (getField req "uniqueKey"))))) } := by
      simp only [createRequestModel, hmismatch]
      rfl
    have hpk : hasPrimaryKeyConflict s
        { id := uniqueKeyToRequestId (jsonAsString (getField req "uniqueKey")),
          orderNo := calculateOrderNo req forefront t,
          url := jsonAsString (getField req "url"),
          uniqueKey := jsonAsString (getField req "uniqueKey"),
          method := jsonAsStringOpt (getField req "method"),
          retryCount := jsonAsIntOpt (getField req "retryCount"),
          json := .obj (setField req "id"
            (.str (uniqueKeyToRequestId (jsonAsString (getField req "uniqueKey"))))) } = false := by
      unfold hasPrimaryKeyConflict
      refine List.any_eq_false.mpr ?_
      intro r hr
      have := hnone r hr
      simp only [Bool.not_eq_true] at this
      simp [this]
    refine ⟨_, hcreate, rfl, rfl, ?_, ?_, ?_, ?_⟩ <;> rw [hM] <;>
      simp only [txUpdateRequest, selectRequestOrderNo, hfind, Option.map_none,
        Option.map_none', txAddRequest, hpk, Bool.false_eq_true, if_false, addModelState,
        mkQueueOperationInfo, Option.isSome_none, adjustTotalAndHandledRequestCounts,
        bumpModifiedAndAccessed, insertRequestRow]
    all_goals
      first
      | rfl
      | simp
/-- C5: listHead returns exactly the limit lowest-orderNo non-NULL rows in
ascending orderNo order, each parsed (null-purged) from the stored json. -/
theorem listHead_returns_lowest_orderNos_ascending (s : QueueState) (limit t : Nat) :
    ∃ rows rest,
      (s.requests.filter (fun r => r.orderNo.isSome)).Perm (rows ++ rest) ∧
      rows.length = min limit (s.requests.filter (fun r => r.orderNo.isSome)).length ∧
      List.Sorted orderNoLE rows ∧
      (∀ a ∈ rows, ∀ b ∈ rest, orderNoKey a ≤ orderNoKey b) ∧
      (clientListHead s limit t).1.items = rows.map (fun r => purgeNullsFromObject r.json) := by
  refine ⟨(sortByOrderNo (s.requests.filter (fun r => r.orderNo.isSome))).take limit,
          (sortByOrderNo (s.requests.filter (fun r => r.orderNo.isSome))).drop limit,
          ?_, ?_, ?_, ?_, ?_⟩
  · rw [List.take_append_drop]
    exact (List.perm_insertionSort orderNoLE _).symm
  · rw [List.length_take, sortByOrderNo, (List.perm_insertionSort orderNoLE _).length_eq]
  · exact List.Pairwise.sublist (List.take_sublist _ _) (List.sorted_insertionSort orderNoLE _)
  · unfold sortByOrderNo
    have hs := List.sorted_insertionSort orderNoLE
      (s.requests.filter (fun r => r.orderNo.isSome))
    rw [← List.take_append_drop limit
      (List.insertionSort orderNoLE (s.requests.filter (fun r => r.orderNo.isSome)))] at hs
    exact (List.pairwise_append.mp hs).2.2
  · simp only [clientListHead, selectRequestJsonsByQueueIdWithLimit, List.map_map]
    rfl

/-- C4 witness: the queue holds the pending row for uniqueKey k (orderNo 5);
updating it with a handledAt set reports the prior pending state. -/
theorem updateRequest_prior_state_and_counter_delta_witness :
    c2State.requests.find?
      (fun r => r.id == uniqueKeyToRequestId (jsonAsString (getField c4Req "uniqueKey"))) = some c2Row ∧
    (clientUpdateRequest c2State c4Req false 7).1 =
      .ok { requestId := uniqueKeyToRequestId (jsonAsString (getField c4Req "uniqueKey")),
            wasAlreadyPresent := true, wasAlreadyHandled := c2Row.orderNo.isNone } :=
  ⟨by decide,
   ((updateRequest_prior_state_and_counter_delta c2State c4Req false 7
      (by decide) (by decide)).1 c2Row (by decide)).1⟩

/-- C6 (amended): deleteRequestLock fails with NotLockedOrMissing exactly when
no stored row has the given id with a non-NULL orderNo of absolute value
exceeding the current time (absent, handled, or not currently locked), while
prolongRequestLock fails exactly when no stored row has the given id with a
non-NULL orderNo (absent or handled) — it does not require the row to be
locked; in every other case both operations succeed. -/
theorem lock_error_characterization (s : QueueState) (requestId : String)
    (lockSecs : Nat) (forefront : Bool) (t : Nat) :
    ((txProlongRequestLock s requestId lockSecs forefront t).1 = .error .notLockedOrMissing ↔
      ¬ ∃ r ∈ s.requests, r.id = requestId ∧ r.orderNo.isSome) ∧
    ((txDeleteRequestLock s requestId forefront t).1 = .error .notLockedOrMissing ↔
      ¬ ∃ r ∈ s.requests, r.id = requestId ∧ ∃ o, r.orderNo = some o ∧ o.natAbs > t) ∧
    ((txProlongRequestLock s requestId lockSecs forefront t).1 = .error .notLockedOrMissing ∨
      ∃ v, (txProlongRequestLock s requestId lockSecs forefront t).1 = .ok v) ∧
    ((txDeleteRequestLock s requestId forefront t).1 = .error .notLockedOrMissing ∨
      ∃ v, (txDeleteRequestLock s requestId forefront t).1 = .ok v) := by
  refine ⟨?_, ?_, ?_, ?_⟩
  · unfold txProlongRequestLock fetchRequestNotExpired
    cases hf : s.requests.find? (fun r => r.id == requestId && r.orderNo.isSome) with
    | none =>
      simp only [true_iff]
      intro ⟨r, hr, hid, hsome⟩
      have := List.find?_eq_none.mp hf r hr
      simp [hid, hsome] at this
    | some r =>
      have hmem := List.mem_of_find?_eq_some hf
      have hpred := List.find?_some hf
      simp only [Bool.and_eq_true, beq_iff_eq] at hpred
      simp only [reduceCtorEq, false_iff, not_not]
      exact ⟨r, hmem, hpred.1, hpred.2⟩
  · unfold txDeleteRequestLock fetchRequestNotExpiredAndLocked
    cases hf : s.requests.find? (fun r => r.id == requestId && isLockedOrderNo r.orderNo t) with
    | none =>
      simp only [true_iff]
      intro ⟨r, hr, hid, o, ho, habs⟩
      have := List.find?_eq_none.mp hf r hr
      rw [hid] at this
      simp only [isLockedOrderNo, ho, beq_self_eq_true, Bool.true_and, Bool.not_eq_true,
        Bool.or_eq_false_iff, decide_eq_false_iff_not, not_lt] at this
      omega
    | some r =>
      have hmem := List.mem_of_find?_eq_some hf
      have hpred := List.find?_some hf
      simp only [Bool.and_eq_true, beq_iff_eq] at hpred
      simp only [reduceCtorEq, false_iff, not_not]
      refine ⟨r, hmem, hpred.1, ?_⟩
      rcases hpred with ⟨-, hlock⟩
      cases ho : r.orderNo with
      | none => rw [ho] at hlock; simp [isLockedOrderNo] at hlock
      | some o =>
        rw [ho] at hlock
        simp only [isLockedOrderNo, Bool.or_eq_true, decide_eq_true_eq] at hlock
        exact ⟨o, rfl, by omega⟩
  · unfold txProlongRequestLock
    cases hf : fetchRequestNotExpired s requestId <;> simp
  · unfold txDeleteRequestLock
    cases hf : fetchRequestNotExpiredAndLocked s requestId t <;> simp

/-- C7 (amended): the derived request id equals the first 15 characters of
base64 of the SHA-256 digest of the uniqueKey with plus, slash and equals
stripped; updateRequest rejects a non-empty caller-supplied id disagreeing
with the derived id with the id-mismatch error; addRequest rejects any
caller-supplied id earlier — as a validation (InvalidArgument) error — because
its argument shape requires the id to be undefined. -/
theorem requestId_derivation_and_id_rejection :
    (∀ uniqueKey, uniqueKeyToRequestId uniqueKey = specRequestIdOfUniqueKey uniqueKey) ∧
    (∀ (s : QueueState) (req : JsonFields) (forefront : Bool) (t : Nat) (i : String),
      validRequestShape req = true →
      getField req "id" = some (.str i) →
      i ≠ "" →
      i ≠ uniqueKeyToRequestId (jsonAsString (getField req "uniqueKey")) →
      clientUpdateRequest s req forefront t = (.error .idMismatch, s)) ∧
    (∀ (s : QueueState) (req : JsonFields) (forefront : Bool) (t : Nat),
      (getField req "id").isSome = true →
      clientAddRequest s req forefront t = (.error .invalidArgument, s)) := by
  refine ⟨?_, ?_, ?_⟩
  · intro uk
    unfold uniqueKeyToRequestId specRequestIdOfUniqueKey REQUEST_ID_LENGTH
    dsimp only
    congr 1
    split
    · rfl
    · rename_i h2
      exact (List.take_of_length_le (Nat.le_of_not_lt h2)).symm
  · intro s req forefront t i hval hid hne1 hne2
    have hval2 : isJsonString (getField req "id") = true := by rw [hid]; rfl
    simp only [clientUpdateRequest, hval, hval2, Bool.and_self, Bool.not_true,
      Bool.false_eq_true, if_false, createRequestModel, hid]
    simp [isJsonString, hne1, hne2]
  · intro s req forefront t hid
    have hnone : (getField req "id").isNone = false := by
      cases h : getField req "id" with
      | none => rw [h] at hid; simp at hid
      | some v => rfl
    simp [clientAddRequest, hnone]

/-- C7 witness: the id of a concrete uniqueKey agrees with the spec derivation,
and the two rejection behaviours at a concrete request carrying id `bogus`. -/
theorem requestId_derivation_and_id_rejection_witness :
    specRequestIdOfUniqueKey "k" = uniqueKeyToRequestId "k" ∧
    clientUpdateRequest (freshQueue "q" 0) c7Req false 5 = (.error .idMismatch, freshQueue "q" 0) ∧
    clientAddRequest (freshQueue "q" 0) c7Req false 5 = (.error .invalidArgument, freshQueue "q" 0) :=
  ⟨(requestId_derivation_and_id_rejection.1 "k").symm,
   requestId_derivation_and_id_rejection.2.1 (freshQueue "q" 0) c7Req false 5 "bogus"
     (by decide) (by decide) (by decide) (by decide),
   requestId_derivation_and_id_rejection.2.2 (freshQueue "q" 0) c7Req false 5 (by decide)⟩

/-- Purging is the identity on objects without null-valued properties. -/
theorem purgeFields_of_noNull : ∀ (fs : JsonFields), noNullField fs = true → purgeFields fs = fs
  | .nil, _ => rfl
  | .cons k v tl, h => by
    have ih := purgeFields_of_noNull tl
    cases v <;> simp_all [noNullField, purgeFields]

/-- Setting a string-valued property preserves the absence of null values. -/
theorem noNullField_setField : ∀ (fs : JsonFields) (k x : String),
    noNullField fs = true → noNullField (setField fs k (.str x)) = true
  | .nil, _, _, _ => rfl
  | .cons k' v' tl, k, x, h => by
    have ih := noNullField_setField tl k x
    by_cases hk : (k' == k) = true <;> cases v' <;> simp_all [noNullField, setField]

/-- Searching an appended list when the first part has no match. -/
theorem find?_append_of_none {α : Type} (p : α → Bool) : ∀ (l1 l2 : List α),
    l1.find? p = none → (l1 ++ l2).find? p = l2.find? p
  | [], _, _ => rfl
  | a :: l1, l2, h => by
    cases hp : p a with
    | true => rw [List.find?_cons_of_pos _ hp] at h; simp at h
    | false =>
      rw [List.find?_cons_of_neg _ (by simp [hp])] at h
      rw [List.cons_append, List.find?_cons_of_neg _ (by simp [hp])]
      exact find?_append_of_none p l1 l2 h

/-- C8 (amended): adding a fresh valid request and reading its id back through
getRequest returns the object the caller passed with the derived id appended
and every top-level null-valued property removed; when no property of the
request is null the object comes back exactly as passed, with the id appended;
on a previously empty queue a pending request also comes back that way as the
sole listHead item. -/
theorem addRequest_getRequest_roundtrip (s : QueueState) (req : JsonFields)
    (forefront : Bool) (t t2 lim : Nat)
    (hval : validRequestShape req = true)
    (hid : getField req "id" = none)
    (hfresh : s.requests.all
      (fun r => r.id != uniqueKeyToRequestId (jsonAsString (getField req "uniqueKey"))) = true) :
    (clientAddRequest s req forefront t).1 =
      .ok { requestId := uniqueKeyToRequestId (jsonAsString (getField req "uniqueKey")),
            wasAlreadyPresent := false, wasAlreadyHandled := false } ∧
    (clientGetRequest (clientAddRequest s req forefront t).2
        (uniqueKeyToRequestId (jsonAsString (getField req "uniqueKey"))) t2).1 =
      some (purgeNullsFromObject (.obj (setField req "id"
        (.str (uniqueKeyToRequestId (jsonAsString (getField req "uniqueKey"))))))) ∧
    (noNullField req = true →
      (clientGetRequest (clientAddRequest s req forefront t).2
          (uniqueKeyToRequestId (jsonAsString (getField req "uniqueKey"))) t2).1 =
        some (.obj (setField req "id"
          (.str (uniqueKeyToRequestId (jsonAsString (getField req "uniqueKey"))))))) ∧
    (s.requests = [] → getField req "handledAt" = none → 1 ≤ lim →
      (clientListHead (clientAddRequest s req forefront t).2 lim t2).1.items =
        [purgeNullsFromObject (.obj (setField req "id"
          (.str (uniqueKeyToRequestId (jsonAsString (getField req "uniqueKey"))))))]) := by
  have hmismatch : (match getField req "id" with
      | some (.str i) => i ≠ "" && i ≠ uniqueKeyToRequestId (jsonAsString (getField req "uniqueKey"))
      | _ => false) = false := by
    rw [hid]
  have hidn : (getField req "id").isNone = true := by rw [hid]; rfl
  have hM : clientAddRequest s req forefront t =
      txAddRequest s
        { id := uniqueKeyToRequestId (jsonAsString (getField req "uniqueKey")),
          orderNo := calculateOrderNo req forefront t,
          url := jsonAsString (getField req "url"),
          uniqueKey := jsonAsString (getField req "uniqueKey"),
          method := jsonAsStringOpt (getField req "method"),
          retryCount := jsonAsIntOpt (getField req "retryCount"),
          json := .obj (setField req "id"
            (.str (uniqueKeyToRequestId (jsonAsString (getField req "uniqueKey"))))) } t := by
    simp only [clientAddRequest, hval, hidn, Bool.and_self, Bool.not_true,
      Bool.false_eq_true, if_false, createRequestModel, hmismatch]
  have hfalse : ∀ r ∈ s.requests,
      (r.id == uniqueKeyToRequestId (jsonAsString (getField req "uniqueKey"))) = false := by
    intro r hr
    have := List.all_eq_true.mp hfresh r hr
    simpa using this
  have hpk : hasPrimaryKeyConflict s
      { id := uniqueKeyToRequestId (jsonAsString (getField req "uniqueKey")),
        orderNo := calculateOrderNo req forefront t,
        url := jsonAsString (getField req "url"),
        uniqueKey := jsonAsString (getField req "uniqueKey"),
        method := jsonAsStringOpt (getField req "method"),
        retryCount := jsonAsIntOpt (getField req "retryCount"),
        json := .obj (setField req "id"
          (.str (uniqueKeyToRequestId (jsonAsString (getField req "uniqueKey"))))) } = false := by
    unfold hasPrimaryKeyConflict
    refine List.any_eq_false.mpr ?_
    intro r hr
    simp [hfalse r hr]
  have hfindnone : s.requests.find?
      (fun r => r.id == uniqueKeyToRequestId (jsonAsString (getField req "uniqueKey"))) = none :=
    List.find?_eq_none.mpr (by intro r hr; simp [hfalse r hr])
  rw [hM]
  simp only [txAddRequest, hpk, Bool.false_eq_true, if_false, addModelState,
    mkQueueOperationInfo, Option.isSome_none, adjustTotalAndHandledRequestCounts,
    bumpModifiedAndAccessed, insertRequestRow]
  refine ⟨trivial, ?_, ?_, ?_⟩
  · simp only [clientGetRequest, updateAccessedAtById, selectRequestJsonById]
    rw [find?_append_of_none _ _ _ hfindnone]
    simp [jsonToRequest]
  · intro hnn
    simp only [clientGetRequest, updateAccessedAtById, selectRequestJsonById]
    rw [find?_append_of_none _ _ _ hfindnone]
    simp [jsonToRequest, purgeNullsFromObject,
      purgeFields_of_noNull _ (noNullField_setField req "id" _ hnn)]
  · intro hemp hha hlim
    obtain ⟨n, rfl⟩ : ∃ n, lim = n + 1 := ⟨lim - 1, by omega⟩
    simp only [clientListHead, updateAccessedAtById, selectRequestJsonsByQueueIdWithLimit, hemp]
    simp [sortByOrderNo, List.insertionSort, List.orderedInsert, calculateOrderNo, hha,
      jsonToRequest]

/-- Frame relation is reflexive. -/
theorem forall₂_frame_refl : ∀ (l : List RequestModel), List.Forall₂ frameAgrees l l
  | [] => List.Forall₂.nil
  | r :: l => List.Forall₂.cons (by simp [frameAgrees]) (forall₂_frame_refl l)

/-- Frame relation chains. -/
theorem forall₂_frame_trans : ∀ {l1 l2 l3 : List RequestModel},
    List.Forall₂ frameAgrees l1 l2 → List.Forall₂ frameAgrees l2 l3 →
    List.Forall₂ frameAgrees l1 l3 := by
  intro l1 l2 l3 h12 h23
  induction h12 generalizing l3 with
  | nil => cases h23; exact List.Forall₂.nil
  | cons hab htl ih =>
    cases h23 with
    | cons hbc htl2 =>
      refine List.Forall₂.cons ?_ (ih htl2)
      obtain ⟨h1, h2, h3, h4, h5, h6, h7⟩ := hab
      obtain ⟨g1, g2, g3, g4, g5, g6, g7⟩ := hbc
      exact ⟨g1.trans h1, g2.trans h2, g3.trans h3, g4.trans h4,
             g5.trans h5, g6.trans h6, g7.trans h7⟩

/-- Frame-related row lists carry the same ids. -/
theorem forall₂_frame_map_id : ∀ {l l' : List RequestModel},
    List.Forall₂ frameAgrees l l' → l'.map (·.id) = l.map (·.id) := by
  intro l l' h
  induction h with
  | nil => rfl
  | cons hab _ ih => simp [ih, hab.1]

/-- Frame-related row lists have the same number of handled (NULL orderNo)
rows. -/
theorem forall₂_frame_filter_none : ∀ {l l' : List RequestModel},
    List.Forall₂ frameAgrees l l' →
    (l'.filter (fun r => r.orderNo.isNone)).length = (l.filter (fun r => r.orderNo.isNone)).length := by
  intro l l' h
  induction h with
  | nil => rfl
  | @cons a b l1 l2 hab htl ih =>
    have hnn : b.orderNo.isNone = a.orderNo.isNone := by
      have h7 := hab.2.2.2.2.2.2
      cases ha : a.orderNo <;> cases hb : b.orderNo <;> simp_all
    simp only [List.filter_cons, hnn]
    cases hin : a.orderNo.isNone <;> simp [ih]

/-- Rows updated by the updateOrderNo statement, when every row carrying the
target id is unhandled, are frame-related to the originals. -/
theorem updateOrderNo_rows_frame (requestId : String) (v : Int) : ∀ (l : List RequestModel),
    (∀ r ∈ l, r.id = requestId → r.orderNo.isSome = true) →
    List.Forall₂ frameAgrees l (l.map (fun r =>
      if r.id == requestId then { r with orderNo := some v } else r))
  | [], _ => List.Forall₂.nil
  | r :: l, h => by
    rw [List.map_cons]
    refine List.Forall₂.cons ?_ (updateOrderNo_rows_frame requestId v l ?_)
    · by_cases hid : (r.id == requestId) = true
      · have hs := h r (List.mem_cons_self r l) (by simpa using hid)
        simp [frameAgrees, hid, hs]
      · simp only [hid, Bool.false_eq_true, if_false]
        simp [frameAgrees]
    · intro x hx hxid
      exact h x (List.mem_cons_of_mem _ hx) hxid

/-- The updateOrderNo statement never turns a row with the given id back into a
handled one. -/
theorem updateOrderNo_rows_keep_some (requestId targetId : String) (v : Int)
    (l : List RequestModel) (h : ∀ r ∈ l, r.id = targetId → r.orderNo.isSome = true) :
    ∀ r ∈ l.map (fun r => if r.id == requestId then { r with orderNo := some v } else r),
      r.id = targetId → r.orderNo.isSome = true := by
  intro r hr hid
  obtain ⟨r0, hr0, rfl⟩ := List.mem_map.mp hr
  by_cases h0 : (r0.id == requestId) = true
  · simp [h0]
  · simp only [h0, Bool.false_eq_true, if_false] at hid ⊢
    exact h r0 hr0 hid

/-- State part of the addRequest transaction equals the shared per-model state
change. -/
theorem txAddRequest_state (s : QueueState) (m : RequestModel) (t : Nat) :
    (txAddRequest s m t).2 = addModelState s m t := by
  unfold txAddRequest addModelState
  split <;> simp_all

/-- The updateRequest statement maps nothing when no row carries the id. -/
theorem update_rows_no_match (m : RequestModel) : ∀ (l : List RequestModel),
    (∀ r ∈ l, (r.id == m.id) = false) →
    l.map (fun r => if r.id == m.id then
      { r with orderNo := m.orderNo, url := m.url, uniqueKey := m.uniqueKey,
               method := m.method, retryCount := m.retryCount, json := m.json }
      else r) = l
  | [], _ => rfl
  | r :: l, h => by
    have h0 := h r (List.mem_cons_self r l)
    rw [List.map_cons, h0]
    simp only [Bool.false_eq_true, if_false]
    rw [update_rows_no_match m l (fun x hx => h x (List.mem_cons_of_mem _ hx))]

/-- With duplicate-free ids, a hit of fetchRequestNotExpired means every row
carrying the id is unhandled. -/
theorem rows_with_found_id_are_some (s : QueueState) (requestId : String)
    (hnd : nodupIds s) (req : RequestModel)
    (hf : fetchRequestNotExpired s requestId = some req) :
    ∀ r ∈ s.requests, r.id = requestId → r.orderNo.isSome = true := by
  unfold fetchRequestNotExpired at hf
  have hmem := List.mem_of_find?_eq_some hf
  have hpred := List.find?_some hf
  simp only [Bool.and_eq_true, beq_iff_eq] at hpred
  intro r hr hrid
  have heq : r = req := List.inj_on_of_nodup_map hnd hr hmem (by rw [hrid, hpred.1])
  rw [heq]; exact hpred.2

/-- With duplicate-free ids, a hit of fetchRequestNotExpiredAndLocked means
every row carrying the id is unhandled. -/
theorem rows_with_locked_id_are_some (s : QueueState) (requestId : String) (t : Nat)
    (hnd : nodupIds s) (req : RequestModel)
    (hf : fetchRequestNotExpiredAndLocked s requestId t = some req) :
    ∀ r ∈ s.requests, r.id = requestId → r.orderNo.isSome = true := by
  unfold fetchRequestNotExpiredAndLocked at hf
  have hmem := List.mem_of_find?_eq_some hf
  have hpred := List.find?_some hf
  simp only [Bool.and_eq_true, beq_iff_eq] at hpred
  have hsome : req.orderNo.isSome = true := by
    have := hpred.2
    cases ho : req.orderNo <;> simp_all [isLockedOrderNo]
  intro r hr hrid
  have heq : r = req := List.inj_on_of_nodup_map hnd hr hmem (by rw [hrid, hpred.1])
  rw [heq]; exact hsome

/-- Rows selected by the head-lock query are stored, unhandled rows. -/
theorem mem_head_locked (s : QueueState) (limit t : Nat) :
    ∀ p ∈ fetchRequestHeadThatWillBeLocked s limit t,
      p ∈ s.requests ∧ p.orderNo.isSome = true := by
  intro p hp
  unfold fetchRequestHeadThatWillBeLocked sortByOrderNo at hp
  have hp2 := List.mem_of_mem_take hp
  have hp3 := (List.perm_insertionSort orderNoLE _).mem_iff.mp hp2
  have hp4 := List.mem_filter.mp hp3
  refine ⟨hp4.1, ?_⟩
  have := hp4.2
  cases ho : p.orderNo <;> simp_all [isAvailableOrderNo]

/-- Locking a list of rows one by one only rewrites orderNos of unhandled rows
and keeps both counters. -/
theorem lockRows_fold_frame (lockSecs t : Nat) : ∀ (toLock : List RequestModel) (st : QueueState),
    (∀ p ∈ toLock, ∀ row ∈ st.requests, row.id = p.id → row.orderNo.isSome = true) →
    List.Forall₂ frameAgrees st.requests
      (toLock.foldl (fun st2 r =>
        bumpModifiedAndAccessed
          (updateOrderNoStmt st2 r.id (lockedOrderNo (r.orderNo.getD 0) lockSecs t)) t) st).requests ∧
    (toLock.foldl (fun st2 r =>
        bumpModifiedAndAccessed
          (updateOrderNoStmt st2 r.id (lockedOrderNo (r.orderNo.getD 0) lockSecs t)) t) st).totalRequestCount
      = st.totalRequestCount ∧
    (toLock.foldl (fun st2 r =>
        bumpModifiedAndAccessed
          (updateOrderNoStmt st2 r.id (lockedOrderNo (r.orderNo.getD 0) lockSecs t)) t) st).handledRequestCount
      = st.handledRequestCount
  | [], st, _ => ⟨forall₂_frame_refl _, rfl, rfl⟩
  | p :: toLock, st, h => by
    simp only [List.foldl_cons]
    have hframe1 : List.Forall₂ frameAgrees st.requests
        (bumpModifiedAndAccessed
          (updateOrderNoStmt st p.id (lockedOrderNo (p.orderNo.getD 0) lockSecs t)) t).requests :=
      updateOrderNo_rows_frame p.id _ st.requests (h p (List.mem_cons_self p toLock))
    have hrest : ∀ q ∈ toLock, ∀ row ∈
        (bumpModifiedAndAccessed
          (updateOrderNoStmt st p.id (lockedOrderNo (p.orderNo.getD 0) lockSecs t)) t).requests,
        row.id = q.id → row.orderNo.isSome = true := by
      intro q hq
      exact updateOrderNo_rows_keep_some p.id q.id _ st.requests
        (h q (List.mem_cons_of_mem _ hq))
    obtain ⟨f2, c2, c3⟩ := lockRows_fold_frame lockSecs t toLock _ hrest
    exact ⟨forall₂_frame_trans hframe1 f2, c2, c3⟩

/-- Frame and counter preservation of the prolongRequestLock transaction. -/
theorem txProlongRequestLock_frame (s : QueueState) (requestId : String)
    (lockSecs : Nat) (forefront : Bool) (t : Nat) (hnd : nodupIds s) :
    List.Forall₂ frameAgrees s.requests
      (txProlongRequestLock s requestId lockSecs forefront t).2.requests ∧
    (txProlongRequestLock s requestId lockSecs forefront t).2.totalRequestCount
      = s.totalRequestCount ∧
    (txProlongRequestLock s requestId lockSecs forefront t).2.handledRequestCount
      = s.handledRequestCount := by
  unfold txProlongRequestLock
  cases hf : fetchRequestNotExpired s requestId with
  | none => exact ⟨forall₂_frame_refl _, rfl, rfl⟩
  | some req =>
    have hsome := rows_with_found_id_are_some s requestId hnd req hf
    exact ⟨updateOrderNo_rows_frame requestId _ s.requests hsome, rfl, rfl⟩

/-- Frame and counter preservation of the deleteRequestLock transaction. -/
theorem txDeleteRequestLock_frame (s : QueueState) (requestId : String)
    (forefront : Bool) (t : Nat) (hnd : nodupIds s) :
    List.Forall₂ frameAgrees s.requests
      (txDeleteRequestLock s requestId forefront t).2.requests ∧
    (txDeleteRequestLock s requestId forefront t).2.totalRequestCount = s.totalRequestCount ∧
    (txDeleteRequestLock s requestId forefront t).2.handledRequestCount = s.handledRequestCount := by
  unfold txDeleteRequestLock
  cases hf : fetchRequestNotExpiredAndLocked s requestId t with
  | none => exact ⟨forall₂_frame_refl _, rfl, rfl⟩
  | some req =>
    have hsome := rows_with_locked_id_are_some s requestId t hnd req hf
    exact ⟨updateOrderNo_rows_frame requestId _ s.requests hsome, rfl, rfl⟩

/-- Frame and counter preservation of the listAndLockHead transaction. -/
theorem txListAndLockHead_frame (s : QueueState) (limit lockSecs t : Nat) (hnd : nodupIds s) :
    List.Forall₂ frameAgrees s.requests (txListAndLockHead s limit lockSecs t).2.requests ∧
    (txListAndLockHead s limit lockSecs t).2.totalRequestCount = s.totalRequestCount ∧
    (txListAndLockHead s limit lockSecs t).2.handledRequestCount = s.handledRequestCount := by
  unfold txListAndLockHead
  dsimp only
  by_cases hemp : (fetchRequestHeadThatWillBeLocked s limit t).isEmpty = true
  · simp only [if_pos hemp]
    refine ⟨forall₂_frame_refl _, ?_, ?_⟩ <;> trivial
  · simp only [if_neg hemp]
    refine lockRows_fold_frame lockSecs t _ s ?_
    intro p hp row hrow hid
    obtain ⟨hpmem, hpsome⟩ := mem_head_locked s limit t p hp
    have heq : row = p := List.inj_on_of_nodup_map hnd hrow hpmem hid
    rw [heq]; exact hpsome

/-- C10: the locking operations prolongRequestLock, deleteRequestLock and
listAndLockHead only rewrite the orderNo column between non-NULL values: row
for row they keep id, url, uniqueKey, method, retryCount, json and the handled
state (orderNo NULL-ness), and they never change totalRequestCount or
handledRequestCount. Stated under duplicate-free row ids, which the SHA-256 id
derivation guarantees short of a hash collision; the statements address rows
by id alone. -/
theorem lock_operations_frame (s : QueueState) (requestId : String)
    (limit lockSecs t : Nat) (forefront : Bool) (hnd : nodupIds s) :
    (List.Forall₂ frameAgrees s.requests
        (txProlongRequestLock s requestId lockSecs forefront t).2.requests ∧
      (txProlongRequestLock s requestId lockSecs forefront t).2.totalRequestCount
        = s.totalRequestCount ∧
      (txProlongRequestLock s requestId lockSecs forefront t).2.handledRequestCount
        = s.handledRequestCount) ∧
    (List.Forall₂ frameAgrees s.requests
        (txDeleteRequestLock s requestId forefront t).2.requests ∧
      (txDeleteRequestLock s requestId forefront t).2.totalRequestCount = s.totalRequestCount ∧
      (txDeleteRequestLock s requestId forefront t).2.handledRequestCount
        = s.handledRequestCount) ∧
    (List.Forall₂ frameAgrees s.requests (txListAndLockHead s limit lockSecs t).2.requests ∧
      (txListAndLockHead s limit lockSecs t).2.totalRequestCount = s.totalRequestCount ∧
      (txListAndLockHead s limit lockSecs t).2.handledRequestCount = s.handledRequestCount) :=
  ⟨txProlongRequestLock_frame s requestId lockSecs forefront t hnd,
   txDeleteRequestLock_frame s requestId forefront t hnd,
   txListAndLockHead_frame s limit lockSecs t hnd⟩

/-- C10 witness: the frame relation instantiated at a concrete two-row queue
locked by listAndLockHead. -/
theorem lock_operations_frame_witness :
    nodupIds c10State ∧
    List.Forall₂ frameAgrees c10State.requests
      (txListAndLockHead c10State 5 60 50).2.requests ∧
    (txListAndLockHead c10State 5 60 50).2.handledRequestCount
      = c10State.handledRequestCount :=
  ⟨by unfold nodupIds; decide,
   (lock_operations_frame c10State "a" 5 60 50 false (by unfold nodupIds; decide)).2.2.1,
   (lock_operations_frame c10State "a" 5 60 50 false (by unfold nodupIds; decide)).2.2.2.2⟩

/-- Counter agreement and id discipline survive one model insertion. -/
theorem addModelState_inv (s : QueueState) (m : RequestModel) (t : Nat)
    (hc : countsOk s) (hnd : nodupIds s) (hcon : idConsistentModel s m = true) :
    countsOk (addModelState s m t) ∧ nodupIds (addModelState s m t) := by
  unfold addModelState
  split
  · exact ⟨hc, hnd⟩
  · rename_i hconf
    refine ⟨⟨?_, ?_⟩, ?_⟩
    · simp only [adjustTotalAndHandledRequestCounts, bumpModifiedAndAccessed, insertRequestRow]
      rw [hc.1]
      push_cast [List.length_append, List.length_singleton]
      ring
    · simp only [adjustTotalAndHandledRequestCounts, bumpModifiedAndAccessed, insertRequestRow]
      rw [hc.2, List.filter_append]
      cases hmo : m.orderNo <;>
        simp [hmo, List.length_append]
    · simp only [adjustTotalAndHandledRequestCounts, bumpModifiedAndAccessed, insertRequestRow,
        nodupIds, List.map_append]
      rw [List.nodup_append]
      refine ⟨hnd, List.nodup_singleton _, ?_⟩
      intro a ha hb
      simp only [List.map_cons, List.map_nil, List.mem_singleton] at hb
      obtain ⟨r, hr, rfl⟩ := List.mem_map.mp ha
      have huk : r.uniqueKey = m.uniqueKey := by
        have := List.all_eq_true.mp hcon r hr
        rcases Bool.or_eq_true_iff.mp this with h1 | h2
        · exact absurd hb (by simpa using h1)
        · simpa using h2
      exact hconf (List.any_eq_true.mpr ⟨r, hr, by simp [hb, huk]⟩)

/-- Updating rows by id keeps the id column. -/
theorem update_rows_map_id (m : RequestModel) (l : List RequestModel) :
    (l.map (fun r => if r.id == m.id then
      { r with orderNo := m.orderNo, url := m.url, uniqueKey := m.uniqueKey,
               method := m.method, retryCount := m.retryCount, json := m.json }
      else r)).map (·.id) = l.map (·.id) := by
  rw [List.map_map]
  apply List.map_congr_left
  intro r _
  by_cases h : r.id = m.id <;> simp [h]

/-- Handled-row count change of the updateRequest statement: with
duplicate-free ids, exactly the found row changes its NULL-ness. -/
theorem update_rows_filter_none (m row0 : RequestModel) : ∀ (l : List RequestModel),
    (l.map (·.id)).Nodup → l.find? (fun r => r.id == m.id) = some row0 →
    (((l.map (fun r => if r.id == m.id then
        { r with orderNo := m.orderNo, url := m.url, uniqueKey := m.uniqueKey,
                 method := m.method, retryCount := m.retryCount, json := m.json }
      else r)).filter (fun r => r.orderNo.isNone)).length : Int) =
      ((l.filter (fun r => r.orderNo.isNone)).length : Int) +
      (if m.orderNo.isNone then 1 else 0) - (if row0.orderNo.isNone then 1 else 0)
  | [], _, hf => by simp at hf
  | r :: l, hnd, hf => by
    by_cases hid : (r.id == m.id) = true
    · rw [@List.find?_cons_of_pos _ (fun r => r.id == m.id) r l hid] at hf
      have hrr : r = row0 := by injection hf
      have hrid : r.id = m.id := by simpa using hid
      have hnomatch : ∀ x ∈ l, (x.id == m.id) = false := by
        intro x hx
        have hne : x.id ≠ r.id := by
          intro hcontra
          have hmm : x.id ∈ List.map (fun y : RequestModel => y.id) l :=
            List.mem_map_of_mem _ hx
          rw [hcontra] at hmm
          exact (List.nodup_cons.mp hnd).1 hmm
        rw [hrid] at hne
        simpa using hne
      rw [List.map_cons, update_rows_no_match m l hnomatch]
      rw [← hrr]
      simp only [hid, if_true, List.filter_cons]
      cases hmo : m.orderNo <;> cases hro : r.orderNo <;>
        simp [hmo, hro]
    · rw [@List.find?_cons_of_neg _ (fun r => r.id == m.id) r l hid] at hf
      have ih := update_rows_filter_none m row0 l (List.nodup_cons.mp hnd).2 hf
      rw [List.map_cons]
      simp only [hid, Bool.false_eq_true, if_false, List.filter_cons]
      cases hro : r.orderNo.isNone <;>
        · simp [hro] at ih ⊢
          omega

/-- Invariants transported along the frame relation. -/
theorem inv_of_frame (s s' : QueueState)
    (hf : List.Forall₂ frameAgrees s.requests s'.requests)
    (ht : s'.totalRequestCount = s.totalRequestCount)
    (hh : s'.handledRequestCount = s.handledRequestCount)
    (hc : countsOk s) (hnd : nodupIds s) : countsOk s' ∧ nodupIds s' := by
  refine ⟨⟨?_, ?_⟩, ?_⟩
  · rw [ht, hc.1, hf.length_eq]
  · rw [hh, hc.2, forall₂_frame_filter_none hf]
  · unfold nodupIds at hnd ⊢
    rw [forall₂_frame_map_id hf]
    exact hnd

/-- State part of the batch transaction is the fold of single insertions. -/
theorem txBatchAddRequests_state_aux (t : Nat) : ∀ (ms : List RequestModel)
    (acc : List ProcessedRequest) (s : QueueState),
    (ms.foldl (fun acc2 m => (acc2.1 ++ [batchProcessedOne acc2.2 m], addModelState acc2.2 m t))
      (acc, s)).2 = ms.foldl (fun st m => addModelState st m t) s
  | [], _, _ => rfl
  | _ :: ms, _, _ => txBatchAddRequests_state_aux t ms _ _

/-- Invariants through the batch fold. -/
theorem batch_fold_inv (t : Nat) : ∀ (ms : List RequestModel) (s : QueueState),
    countsOk s → nodupIds s → modelsConsistent s ms t = true →
    countsOk (ms.foldl (fun st m => addModelState st m t) s) ∧
    nodupIds (ms.foldl (fun st m => addModelState st m t) s)
  | [], s, hc, hnd, _ => ⟨hc, hnd⟩
  | m :: ms, s, hc, hnd, hcon => by
    simp only [List.foldl_cons]
    simp only [modelsConsistent, Bool.and_eq_true] at hcon
    have h := addModelState_inv s m t hc hnd hcon.1
    exact batch_fold_inv t ms _ h.1 h.2 hcon.2

/-- Invariants through one updateRequest transaction. -/
theorem txUpdateRequest_inv (s : QueueState) (m : RequestModel) (t : Nat)
    (hc : countsOk s) (hnd : nodupIds s) (hcon : idConsistentModel s m = true) :
    countsOk (txUpdateRequest s m t).2 ∧ nodupIds (txUpdateRequest s m t).2 := by
  unfold txUpdateRequest
  cases hsel : selectRequestOrderNo s m.id with
  | none =>
    rw [txAddRequest_state]
    exact addModelState_inv s m t hc hnd hcon
  | some old =>
    obtain ⟨row0, hfind, horder⟩ : ∃ row0,
        s.requests.find? (fun r => r.id == m.id) = some row0 ∧ row0.orderNo = old := by
      unfold selectRequestOrderNo at hsel
      cases hfq : s.requests.find? (fun r => r.id == m.id) with
      | none => rw [hfq] at hsel; simp at hsel
      | some r0 => rw [hfq] at hsel; simp at hsel; exact ⟨r0, rfl, hsel⟩
    subst horder
    refine ⟨⟨?_, ?_⟩, ?_⟩
    · simp only [adjustTotalAndHandledRequestCounts, bumpModifiedAndAccessed,
        updateRequestRowByModel]
      rw [hc.1]
      simp [List.length_map]
    · simp only [adjustTotalAndHandledRequestCounts, bumpModifiedAndAccessed,
        updateRequestRowByModel]
      have hfl := update_rows_filter_none m row0 s.requests hnd hfind
      rw [hc.2, hfl]
      cases hm : m.orderNo <;> cases hr : row0.orderNo <;> simp [hm, hr]
      ring
    · unfold nodupIds at hnd ⊢
      simp only [adjustTotalAndHandledRequestCounts, bumpModifiedAndAccessed,
        updateRequestRowByModel]
      rw [update_rows_map_id]
      exact hnd

/-- Invariants through any single operation. -/
theorem applyOp_inv (s : QueueState) (op : QueueOp)
    (hc : countsOk s) (hnd : nodupIds s) (hcon : opConsistent s op = true) :
    countsOk (applyOp s op) ∧ nodupIds (applyOp s op) := by
  cases op with
  | addRequest m t =>
    simp only [applyOp]
    rw [txAddRequest_state]
    exact addModelState_inv s m t hc hnd (by simpa [opConsistent] using hcon)
  | batchAddRequests ms t =>
    simp only [applyOp]
    unfold txBatchAddRequests
    rw [txBatchAddRequests_state_aux]
    exact batch_fold_inv t ms s hc hnd (by simpa [opConsistent] using hcon)
  | updateRequest m t =>
    simp only [applyOp]
    exact txUpdateRequest_inv s m t hc hnd (by simpa [opConsistent] using hcon)
  | listHead limit t => exact ⟨hc, hnd⟩
  | listAndLockHead limit lockSecs t =>
    have h := txListAndLockHead_frame s limit lockSecs t hnd
    exact inv_of_frame _ _ h.1 h.2.1 h.2.2 hc hnd
  | prolongRequestLock id lockSecs forefront t =>
    have h := txProlongRequestLock_frame s id lockSecs forefront t hnd
    exact inv_of_frame _ _ h.1 h.2.1 h.2.2 hc hnd
  | deleteRequestLock id forefront t =>
    have h := txDeleteRequestLock_frame s id forefront t hnd
    exact inv_of_frame _ _ h.1 h.2.1 h.2.2 hc hnd
  | getQueue t => exact ⟨hc, hnd⟩
  | getRequest id t => exact ⟨hc, hnd⟩
  | renameQueue n t => exact ⟨hc, hnd⟩

/-- Invariants along any consistent history. -/
theorem runOps_inv : ∀ (ops : List QueueOp) (s : QueueState),
    countsOk s → nodupIds s → opsConsistent s ops = true →
    countsOk (runOps s ops) ∧ nodupIds (runOps s ops)
  | [], s, hc, hnd, _ => ⟨hc, hnd⟩
  | op :: ops, s, hc, hnd, hcon => by
    simp only [opsConsistent, Bool.and_eq_true] at hcon
    have h := applyOp_inv s op hc hnd hcon.1
    have h2 := runOps_inv ops (applyOp s op) h.1 h.2 hcon.2
    simpa [runOps] using h2

/-- C3: starting from a freshly created queue, after every sequence of queue
operations (addRequest, batchAddRequests, updateRequest, listHead,
listAndLockHead, prolongRequestLock, deleteRequestLock, interleaved with the
read and rename operations) the queue row satisfies: totalRequestCount is the
number of request rows and handledRequestCount the number of rows with NULL
orderNo, so pendingRequestCount is never negative. Stated under the id
consistency side condition, which holds for client-derived models short of a
SHA-256 collision of the id derivation. -/
theorem counts_invariant_after_operations (name : String) (t0 : Nat) (ops : List QueueOp)
    (hcon : opsConsistent (freshQueue name t0) ops = true) :
    countsOk (runOps (freshQueue name t0) ops) ∧
    0 ≤ (runOps (freshQueue name t0) ops).pendingRequestCount := by
  have h := runOps_inv ops (freshQueue name t0) ⟨rfl, rfl⟩
    (by unfold nodupIds freshQueue; simp) hcon
  refine ⟨h.1, ?_⟩
  obtain ⟨h1, h2⟩ := h.1
  unfold QueueState.pendingRequestCount
  rw [h1, h2]
  have hle := List.length_filter_le (fun r => r.orderNo.isNone)
    (runOps (freshQueue name t0) ops).requests
  omega

/-- C3 witness: the invariant evaluated after a concrete mixed history of
adds, updates, a lock round, prolong, release and listHead. -/
theorem counts_invariant_after_operations_witness :
    opsConsistent (freshQueue "q" 5) c3Ops = true ∧
    countsOk (runOps (freshQueue "q" 5) c3Ops) ∧
    0 ≤ (runOps (freshQueue "q" 5) c3Ops).pendingRequestCount :=
  ⟨by decide,
   (counts_invariant_after_operations "q" 5 c3Ops (by decide)).1,
   (counts_invariant_after_operations "q" 5 c3Ops (by decide)).2⟩

/-- Timestamp effect of the batch fold: untouched, or both stamps set to now. -/
theorem batch_fold_timestamps (t : Nat) : ∀ (ms : List RequestModel) (st : QueueState),
    ((ms.foldl (fun st2 m => addModelState st2 m t) st).modifiedAt = st.modifiedAt ∧
     (ms.foldl (fun st2 m => addModelState st2 m t) st).accessedAt = st.accessedAt) ∨
    ((ms.foldl (fun st2 m => addModelState st2 m t) st).modifiedAt = t ∧
     (ms.foldl (fun st2 m => addModelState st2 m t) st).accessedAt = t)
  | [], _ => Or.inl ⟨rfl, rfl⟩
  | m :: ms, st => by
    simp only [List.foldl_cons]
    have hstep : ((addModelState st m t).modifiedAt = st.modifiedAt ∧
        (addModelState st m t).accessedAt = st.accessedAt) ∨
        ((addModelState st m t).modifiedAt = t ∧ (addModelState st m t).accessedAt = t) := by
      unfold addModelState
      split
      · exact Or.inl ⟨rfl, rfl⟩
      · exact Or.inr ⟨rfl, rfl⟩
    rcases batch_fold_timestamps t ms (addModelState st m t) with ⟨h1, h2⟩ | ⟨h1, h2⟩
    · rcases hstep with ⟨g1, g2⟩ | ⟨g1, g2⟩
      · exact Or.inl ⟨h1.trans g1, h2.trans g2⟩
      · exact Or.inr ⟨h1.trans g1, h2.trans g2⟩
    · exact Or.inr ⟨h1, h2⟩

/-- Timestamp effect of the lock fold: untouched (empty), or both set to now. -/
theorem lock_fold_timestamps (lockSecs t : Nat) : ∀ (toLock : List RequestModel) (st : QueueState),
    ((toLock.foldl (fun st2 r =>
        bumpModifiedAndAccessed
          (updateOrderNoStmt st2 r.id (lockedOrderNo (r.orderNo.getD 0) lockSecs t)) t) st).modifiedAt
        = st.modifiedAt ∧
     (toLock.foldl (fun st2 r =>
        bumpModifiedAndAccessed
          (updateOrderNoStmt st2 r.id (lockedOrderNo (r.orderNo.getD 0) lockSecs t)) t) st).accessedAt
        = st.accessedAt) ∨
    ((toLock.foldl (fun st2 r =>
        bumpModifiedAndAccessed
          (updateOrderNoStmt st2 r.id (lockedOrderNo (r.orderNo.getD 0) lockSecs t)) t) st).modifiedAt = t ∧
     (toLock.foldl (fun st2 r =>
        bumpModifiedAndAccessed
          (updateOrderNoStmt st2 r.id (lockedOrderNo (r.orderNo.getD 0) lockSecs t)) t) st).accessedAt = t)
  | [], _ => Or.inl ⟨rfl, rfl⟩
  | r :: toLock, st => by
    simp only [List.foldl_cons]
    rcases lock_fold_timestamps lockSecs t toLock
        (bumpModifiedAndAccessed
          (updateOrderNoStmt st r.id (lockedOrderNo (r.orderNo.getD 0) lockSecs t)) t) with
      ⟨h1, h2⟩ | ⟨h1, h2⟩
    · exact Or.inr ⟨h1, h2⟩
    · exact Or.inr ⟨h1, h2⟩

/-- Timestamp effect of any single operation: untouched (failed or empty
operation), both set to now (a request-table trigger fired), accessedAt alone
set to now (a read), or — only for rename — modifiedAt alone set to now. -/
theorem applyOp_timestamps (s : QueueState) (op : QueueOp) :
    ((applyOp s op).modifiedAt = s.modifiedAt ∧ (applyOp s op).accessedAt = s.accessedAt) ∨
    ((applyOp s op).modifiedAt = opTime op ∧ (applyOp s op).accessedAt = opTime op) ∨
    ((applyOp s op).modifiedAt = s.modifiedAt ∧ (applyOp s op).accessedAt = opTime op) ∨
    (isRenameOp op = true ∧ (applyOp s op).modifiedAt = opTime op ∧
      (applyOp s op).accessedAt = s.accessedAt) := by
  cases op with
  | addRequest m t =>
    simp only [applyOp, opTime]
    rw [txAddRequest_state]
    unfold addModelState
    split
    · exact Or.inl ⟨rfl, rfl⟩
    · exact Or.inr (Or.inl ⟨rfl, rfl⟩)
  | batchAddRequests ms t =>
    simp only [applyOp, opTime]
    unfold txBatchAddRequests
    rw [txBatchAddRequests_state_aux]
    rcases batch_fold_timestamps t ms s with h | h
    · exact Or.inl h
    · exact Or.inr (Or.inl h)
  | updateRequest m t =>
    simp only [applyOp, opTime]
    unfold txUpdateRequest
    cases hsel : selectRequestOrderNo s m.id with
    | none =>
      rw [txAddRequest_state]
      unfold addModelState
      split
      · exact Or.inl ⟨rfl, rfl⟩
      · exact Or.inr (Or.inl ⟨rfl, rfl⟩)
    | some old => exact Or.inr (Or.inl ⟨rfl, rfl⟩)
  | listHead limit t => exact Or.inr (Or.inr (Or.inl ⟨rfl, rfl⟩))
  | listAndLockHead limit lockSecs t =>
    simp only [applyOp, opTime]
    unfold txListAndLockHead
    dsimp only
    by_cases hemp : (fetchRequestHeadThatWillBeLocked s limit t).isEmpty = true
    · rw [if_pos hemp]
      exact Or.inl ⟨rfl, rfl⟩
    · rw [if_neg hemp]
      rcases lock_fold_timestamps lockSecs t (fetchRequestHeadThatWillBeLocked s limit t) s with h | h
      · exact Or.inl h
      · exact Or.inr (Or.inl h)
  | prolongRequestLock id lockSecs forefront t =>
    simp only [applyOp, opTime]
    unfold txProlongRequestLock
    cases hf : fetchRequestNotExpired s id with
    | none => exact Or.inl ⟨rfl, rfl⟩
    | some req => exact Or.inr (Or.inl ⟨rfl, rfl⟩)
  | deleteRequestLock id forefront t =>
    simp only [applyOp, opTime]
    unfold txDeleteRequestLock
    cases hf : fetchRequestNotExpiredAndLocked s id t with
    | none => exact Or.inl ⟨rfl, rfl⟩
    | some req => exact Or.inr (Or.inl ⟨rfl, rfl⟩)
  | getQueue t => exact Or.inr (Or.inr (Or.inl ⟨rfl, rfl⟩))
  | getRequest id t => exact Or.inr (Or.inr (Or.inl ⟨rfl, rfl⟩))
  | renameQueue n t => exact Or.inr (Or.inr (Or.inr ⟨rfl, rfl, rfl⟩))

/-- Along a monotone clock, modifiedAt never decreases and both stamps stay
below the clock. -/
theorem runOps_timestamps : ∀ (ops : List QueueOp) (c : Nat) (s : QueueState),
    timesMono c ops = true → s.modifiedAt ≤ c → s.accessedAt ≤ c →
    s.modifiedAt ≤ (runOps s ops).modifiedAt ∧
    (runOps s ops).modifiedAt ≤ endTime c ops ∧
    (runOps s ops).accessedAt ≤ endTime c ops
  | [], _, _, _, h1, h2 => ⟨le_refl _, h1, h2⟩
  | op :: ops, c, s, hm, h1, h2 => by
    simp only [timesMono, Bool.and_eq_true, decide_eq_true_eq] at hm
    have hstep := applyOp_timestamps s op
    have hmod : s.modifiedAt ≤ (applyOp s op).modifiedAt ∧
        (applyOp s op).modifiedAt ≤ opTime op ∧ (applyOp s op).accessedAt ≤ opTime op := by
      obtain ⟨hct, -⟩ := hm
      rcases hstep with ⟨a1, a2⟩ | ⟨a1, a2⟩ | ⟨a1, a2⟩ | ⟨-, a1, a2⟩ <;>
        refine ⟨?_, ?_, ?_⟩ <;> omega
    have hrw : runOps s (op :: ops) = runOps (applyOp s op) ops := rfl
    have hend : endTime c (op :: ops) = endTime (opTime op) ops := rfl
    rw [hrw, hend]
    obtain ⟨g1, g2, g3⟩ :=
      runOps_timestamps ops (opTime op) (applyOp s op) hm.2 hmod.2.1 hmod.2.2
    exact ⟨le_trans hmod.1 g1, g2, g3⟩

/-- Along a monotone clock, a rename-free history keeps accessedAt at or above
modifiedAt. -/
theorem runOps_accessed_ge : ∀ (ops : List QueueOp) (c : Nat) (s : QueueState),
    timesMono c ops = true → (ops.all (fun op => !isRenameOp op)) = true →
    s.modifiedAt ≤ c → s.accessedAt ≤ c → s.modifiedAt ≤ s.accessedAt →
    (runOps s ops).modifiedAt ≤ (runOps s ops).accessedAt
  | [], _, _, _, _, _, _, h3 => h3
  | op :: ops, c, s, hm, hnr, h1, h2, h3 => by
    simp only [timesMono, Bool.and_eq_true, decide_eq_true_eq] at hm
    simp only [List.all_cons, Bool.and_eq_true, Bool.not_eq_true'] at hnr
    have hstep := applyOp_timestamps s op
    have hmod : s.modifiedAt ≤ (applyOp s op).modifiedAt ∧
        (applyOp s op).modifiedAt ≤ opTime op ∧ (applyOp s op).accessedAt ≤ opTime op ∧
        (applyOp s op).modifiedAt ≤ (applyOp s op).accessedAt := by
      obtain ⟨hct, -⟩ := hm
      rcases hstep with ⟨a1, a2⟩ | ⟨a1, a2⟩ | ⟨a1, a2⟩ | ⟨hr, a1, a2⟩
      · refine ⟨?_, ?_, ?_, ?_⟩ <;> omega
      · refine ⟨?_, ?_, ?_, ?_⟩ <;> omega
      · refine ⟨?_, ?_, ?_, ?_⟩ <;> omega
      · rw [hnr.1] at hr
        simp at hr
    have hrw : runOps s (op :: ops) = runOps (applyOp s op) ops := rfl
    rw [hrw]
    exact runOps_accessed_ge ops (opTime op) (applyOp s op) hm.2 hnr.2
      hmod.2.1 hmod.2.2.1 hmod.2.2.2

/-- A monotone clock over a concatenation splits at the junction. -/
theorem timesMono_append : ∀ (pre suf : List QueueOp) (c : Nat),
    timesMono c (pre ++ suf) = true →
    timesMono c pre = true ∧ timesMono (endTime c pre) suf = true
  | [], _, _, h => ⟨rfl, h⟩
  | op :: pre, suf, c, h => by
    simp only [List.cons_append, timesMono, Bool.and_eq_true] at h ⊢
    obtain ⟨h1, h2⟩ := h
    have hr := timesMono_append pre suf (opTime op) h2
    exact ⟨⟨h1, hr.1⟩, hr.2⟩

/-- C9 (amended): for every operation history of a fresh queue under a
monotone wall clock, modifiedAt is monotonically non-decreasing (every prefix
value is at most the final value), and in histories free of the update/rename
operation accessedAt stays at or above modifiedAt after every prefix. The
rename path bumps modifiedAt without touching accessedAt, so the second part
genuinely needs the rename-free restriction. -/
theorem modifiedAt_monotone_and_accessedAt (name : String) (t0 : Nat)
    (ops pre suf : List QueueOp) (hsplit : ops = pre ++ suf)
    (hm : timesMono t0 ops = true) :
    (runOps (freshQueue name t0) pre).modifiedAt ≤
      (runOps (freshQueue name t0) ops).modifiedAt ∧
    ((ops.all (fun op => !isRenameOp op)) = true →
      (runOps (freshQueue name t0) pre).modifiedAt ≤
        (runOps (freshQueue name t0) pre).accessedAt) := by
  subst hsplit
  obtain ⟨hp, hs⟩ := timesMono_append pre suf t0 hm
  have hpre := runOps_timestamps pre t0 (freshQueue name t0) hp (le_refl t0) (le_refl t0)
  constructor
  · have hrw : runOps (freshQueue name t0) (pre ++ suf) =
        runOps (runOps (freshQueue name t0) pre) suf := by
      simp [runOps, List.foldl_append]
    rw [hrw]
    exact (runOps_timestamps suf (endTime t0 pre) _ hs hpre.2.1 hpre.2.2).1
  · intro hnr
    have hnrpre : (pre.all (fun op => !isRenameOp op)) = true := by
      rw [List.all_append, Bool.and_eq_true] at hnr
      exact hnr.1
    exact runOps_accessed_ge pre t0 (freshQueue name t0) hp hnrpre
      (le_refl t0) (le_refl t0) (le_refl t0)

/-- C9 witness: the monotonicity statement instantiated at a concrete
rename-free two-step history. -/
theorem modifiedAt_monotone_and_accessedAt_witness :
    timesMono 0 ([QueueOp.listHead 5 3] ++ [QueueOp.getQueue 4]) = true ∧
    (runOps (freshQueue "q" 0) [QueueOp.listHead 5 3]).modifiedAt ≤
      (runOps (freshQueue "q" 0) ([QueueOp.listHead 5 3] ++ [QueueOp.getQueue 4])).modifiedAt ∧
    (runOps (freshQueue "q" 0) [QueueOp.listHead 5 3]).modifiedAt ≤
      (runOps (freshQueue "q" 0) [QueueOp.listHead 5 3]).accessedAt :=
  ⟨by decide,
   (modifiedAt_monotone_and_accessedAt "q" 0
     ([QueueOp.listHead 5 3] ++ [QueueOp.getQueue 4])
     [QueueOp.listHead 5 3] [QueueOp.getQueue 4] rfl (by decide)).1,
   (modifiedAt_monotone_and_accessedAt "q" 0
     ([QueueOp.listHead 5 3] ++ [QueueOp.getQueue 4])
     [QueueOp.listHead 5 3] [QueueOp.getQueue 4] rfl (by decide)).2 (by decide)⟩

/-- C8 witness: a concrete request with non-null userData on an empty queue
round-trips exactly, through getRequest and through listHead. -/
theorem addRequest_getRequest_roundtrip_witness :
    validRequestShape c8wReq = true ∧
    (clientGetRequest (clientAddRequest (freshQueue "q" 0) c8wReq false 5).2
        (uniqueKeyToRequestId (jsonAsString (getField c8wReq "uniqueKey"))) 6).1 =
      some (.obj (setField c8wReq "id"
        (.str (uniqueKeyToRequestId (jsonAsString (getField c8wReq "uniqueKey")))))) ∧
    (clientListHead (clientAddRequest (freshQueue "q" 0) c8wReq false 5).2 10 6).1.items =
      [purgeNullsFromObject (.obj (setField c8wReq "id"
        (.str (uniqueKeyToRequestId (jsonAsString (getField c8wReq "uniqueKey"))))))] :=
  ⟨by decide,
   (addRequest_getRequest_roundtrip (freshQueue "q" 0) c8wReq false 5 6 10
      (by decide) (by decide) (by decide)).2.2.1 (by decide),
   (addRequest_getRequest_roundtrip (freshQueue "q" 0) c8wReq false 5 6 10
      (by decide) (by decide) (by decide)).2.2.2 rfl (by decide) (by omega)⟩
